import Mathlib

/-!
Verification development for the ORGE-ENGINE thermal simulation core
(src/sim_engine.hpp, src/sim_server.hpp, src/sim_render.hpp, src/main.cpp).

Shallow embedding conventions:
* C++ `float` values (temperatures, conductivities, masses, dt, timings) are
  modelled as exact rationals `ℚ`.
* C++ `uint16_t` material indices are `Nat`; where the source performs a
  narrowing cast the embedding takes `% 65536` explicitly.
* The fixed-size per-chunk arrays of length CHUNK_N = 98304 are modelled as
  total functions `Nat → _`; the cell linearization `idx` is exactly the
  source's `x + y*CHUNK_W + z*CHUNK_W*CHUNK_H` with W = 16, H = 384, D = 16.
* The `std::unordered_map` of chunks is an association list with unique keys;
  in-place mutation through a chunk pointer becomes an update of the entry.
* Wall-clock measurements (the per-section millisecond timings) and PRNG
  draws of the stress controller are modelled as oracle inputs.
-/

set_option maxRecDepth 2000

namespace Orge

/-- Material property tuple (sim_engine.hpp `struct Material`). -/
structure Material where
  heatCapacity : ℚ
  thermalConductivity : ℚ
  defaultMass : ℚ
  molarMass : ℚ
deriving DecidableEq

/-- All-zero material; stands for C++ value-initialization, and is used as the
fallback for out-of-range `std::vector::operator[]` (unspecified in C++,
never exercised by the claims). -/
def Material.zero : Material := ⟨0, 0, 0, 0⟩

/-- Append-only material table (sim_engine.hpp `struct MaterialLUT`). -/
structure MaterialLUT where
  table : List Material
deriving DecidableEq

/-- MaterialLUT::add: push_back, then return `size()-1` narrowed through the
`static_cast<uint16_t>` of the source, i.e. modulo 2^16. -/
def MaterialLUT.add (t : MaterialLUT) (m : Material) : MaterialLUT × Nat :=
  (⟨t.table ++ [m]⟩, ((t.table ++ [m]).length - 1) % 65536)

/-- MaterialLUT::byIx: `table[ix]`. -/
def MaterialLUT.byIx (t : MaterialLUT) (ix : Nat) : Material :=
  t.table.getD ix Material.zero

/-- Cell linearization (sim_engine.hpp `idx`): x + y*16 + z*16*384. -/
def idx (x y z : Nat) : Nat := x + y * 16 + z * 6144

/-- Pointwise array write: models `a[j] = v` on a `Nat →` array model. -/
def updFn {α : Type} (f : Nat → α) (j : Nat) (v : α) : Nat → α :=
  fun k => if k = j then v else f k

/-- Left fold of single-cell writes `a[j] = val j` over a list of cell
indices, in list order; models a loop writing each visited index. -/
def foldWrite {α : Type} (val : Nat → α) (keys : List Nat) (f : Nat → α) : Nat → α :=
  keys.foldl (fun g j => updFn g j (val j)) f

/-- Iteration of the 16x16x16-section triple loop (z outer, y middle, x inner)
linearized by i = x + 16*(y - 16*sy) + 256*z: the cell index written at
loop step i. -/
def keyOf (sy i : Nat) : Nat := idx (i % 16) (sy * 16 + i / 16 % 16) (i / 256)

/-- All cell indices of vertical section `sy`, in the source's loop order. -/
def sectionCells (sy : Nat) : List Nat := (List.range 4096).map (keyOf sy)

/-- Chunk (sim_engine.hpp `struct Chunk`); arrays as total functions. -/
structure Chunk where
  matIx : Nat → Nat
  T_curr : Nat → ℚ
  T_next : Nat → ℚ
  mass_kg : Nat → ℚ
  void_ix : Nat
  cx : Int
  cz : Int
  chunk_ms_last : ℚ
  section_ms_last : Nat → ℚ
  sectionLoaded : Nat → Bool

/-- Chunk constructor: zeroed buffers, no loaded sections; `ensureChunk`
then assigns cx/cz, done here directly. -/
def freshChunk (cx cz : Int) : Chunk :=
  ⟨fun _ => 0, fun _ => 0, fun _ => 0, fun _ => 0, 0, cx, cz, 0, fun _ => 0, fun _ => false⟩

/-- World: chunk map as an association list (unique keys), plus materials. -/
structure World where
  chunks : List ((Int × Int) × Chunk)
  materials : MaterialLUT

/-- World::findChunk. -/
def World.findChunk (w : World) (cx cz : Int) : Option Chunk :=
  (w.chunks.find? (fun kc => decide (kc.1 = (cx, cz)))).map Prod.snd

/-- World::ensureChunk (the part that inserts; the returned pointer is the
entry at the key). -/
def World.ensureChunk (w : World) (cx cz : Int) : World :=
  if (w.findChunk cx cz).isSome then w
  else ⟨w.chunks ++ [((cx, cz), freshChunk cx cz)], w.materials⟩

/-- In-place mutation of the chunk a C++ pointer designates, by key. -/
def World.modifyChunk (w : World) (k : Int × Int) (f : Chunk → Chunk) : World :=
  ⟨w.chunks.map (fun kc => if kc.1 = k then (kc.1, f kc.2) else kc), w.materials⟩

/-- Replacement of the chunk at a key. -/
def World.setChunk (w : World) (k : Int × Int) (C : Chunk) : World :=
  w.modifyChunk k (fun _ => C)

/-- markSectionLoaded (sim_engine.hpp): bounds-checked flag write. -/
def markSectionLoaded (C : Chunk) (sy : Int) (loaded : Bool) : Chunk :=
  if 0 ≤ sy ∧ sy < 24 then
    { C with sectionLoaded := updFn C.sectionLoaded sy.toNat loaded }
  else C

/-- recomputeSectionLoaded (sim_engine.hpp): per section, scan for any
non-void voxel (the source's early-`break` scan is `List.any`). -/
def recomputeSectionLoaded (C : Chunk) : Chunk :=
  { C with
    sectionLoaded := fun sy =>
      if sy < 24 then (sectionCells sy).any (fun j => decide (C.matIx j ≠ C.void_ix))
      else C.sectionLoaded sy }

/-- Neighbor sample (sim_engine.hpp `struct NeighborSample`). -/
structure NeighborSample where
  T : ℚ
  mix : Nat
  ex : Bool
deriving DecidableEq

/-- sample_neighbor_T (sim_engine.hpp): neighbor lookup across chunk
borders; `ex` is the source's `exists` flag. -/
def sample_neighbor_T (world : World) (C : Chunk) (x y z dx dy dz : Int) : NeighborSample :=
  let nx := x + dx
  let ny := y + dy
  let nz := z + dz
  if ny < 0 ∨ 384 ≤ ny then ⟨0, C.void_ix, false⟩
  else
    let ncx := if nx < 0 then C.cx - 1 else if 16 ≤ nx then C.cx + 1 else C.cx
    let lx : Int := if nx < 0 then 15 else if 16 ≤ nx then 0 else nx
    let ncz := if nz < 0 then C.cz - 1 else if 16 ≤ nz then C.cz + 1 else C.cz
    let lz : Int := if nz < 0 then 15 else if 16 ≤ nz then 0 else nz
    if ncx = C.cx ∧ ncz = C.cz then
      ⟨C.T_curr (idx lx.toNat ny.toNat lz.toNat), C.matIx (idx lx.toNat ny.toNat lz.toNat), true⟩
    else
      match world.findChunk ncx ncz with
      | none => ⟨0, C.void_ix, false⟩
      | some CC =>
          ⟨CC.T_curr (idx lx.toNat ny.toNat lz.toNat), CC.matIx (idx lx.toNat ny.toNat lz.toNat), true⟩

/-- Interface conductivity of the kernel: zero if either side is a
non-conductor, else the harmonic mean 2*k1*k2/(k1+k2). -/
def k_eff (k1 k2 : ℚ) : ℚ :=
  if k1 ≤ 0 ∨ k2 ≤ 0 then 0 else 2 * k1 * k2 / (k1 + k2)

/-- Contribution of one face to dT in the kernel loop body; a non-existent
neighbor contributes nothing (the `continue`).  The source's `inv_dx2`
factor is the constant 1. -/
def fluxTerm (mats : MaterialLUT) (m : Material) (Tc : ℚ) (nb : NeighborSample) : ℚ :=
  if nb.ex then
    k_eff m.thermalConductivity (mats.byIx nb.mix).thermalConductivity * (nb.T - Tc)
  else 0

/-- Final clamp of the kernel: `if (Tnew < 0) 0 else if (Tnew > 6000) 6000`. -/
def clampT (t : ℚ) : ℚ := if t < 0 then 0 else if 6000 < t then 6000 else t

/-- Loop body of simulate_section_16x16x16 for one cell (x,y,z): the value
stored into T_next. -/
def cellNext (world : World) (C : Chunk) (mats : MaterialLUT) (dt : ℚ) (x y z : Nat) : ℚ :=
  let i := idx x y z
  let mix := C.matIx i
  if mix = C.void_ix then C.T_curr i
  else
    let m := mats.byIx mix
    let Cth := max (1 / 100000000) (C.mass_kg i * m.heatCapacity)
    let Tc := C.T_curr i
    let dT :=
      fluxTerm mats m Tc (sample_neighbor_T world C x y z 1 0 0) +
      fluxTerm mats m Tc (sample_neighbor_T world C x y z (-1) 0 0) +
      fluxTerm mats m Tc (sample_neighbor_T world C x y z 0 1 0) +
      fluxTerm mats m Tc (sample_neighbor_T world C x y z 0 (-1) 0) +
      fluxTerm mats m Tc (sample_neighbor_T world C x y z 0 0 1) +
      fluxTerm mats m Tc (sample_neighbor_T world C x y z 0 0 (-1))
    clampT (Tc + dt / Cth * dT)

/-- simulate_section_16x16x16 (sim_engine.hpp): write T_next for every cell
of section sy, iterating in the source's loop order; each iteration reads
only T_curr/matIx/mass_kg and writes its own T_next slot. -/
def simulate_section_16x16x16 (world : World) (C : Chunk) (mats : MaterialLUT)
    (sy : Nat) (dt : ℚ) : Chunk :=
  { C with
    T_next :=
      foldWrite (fun j => cellNext world C mats dt (j % 16) (j / 16 % 384) (j / 6144))
        (sectionCells sy) C.T_next }

/-- One iteration of the per-chunk section loop of
compute_frame_to_backbuffers: skip a not-loaded section, else run the kernel
and record the measured milliseconds (`tm sy`, a wall-clock oracle). -/
def sectionStep (world : World) (dt : ℚ) (tm : Nat → ℚ) (Ca : Chunk) (sy : Nat) : Chunk :=
  if Ca.sectionLoaded sy then
    let Cb := simulate_section_16x16x16 world Ca world.materials sy dt
    { Cb with
      section_ms_last := updFn Cb.section_ms_last sy (tm sy),
      chunk_ms_last := Cb.chunk_ms_last + tm sy }
  else Ca

/-- Per-chunk body of compute_frame_to_backbuffers: reset timings, then loop
over the 24 sections. -/
def computeChunk (world : World) (C : Chunk) (dt : ℚ) (tm : Nat → ℚ) : Chunk :=
  (List.range 24).foldl (sectionStep world dt tm)
    { C with chunk_ms_last := 0, section_ms_last := fun _ => 0 }

/-- One iteration of the chunk loop of compute_frame_to_backbuffers: update
the chunk the iterator designates in place (reading neighbors from the
world as it stands, where earlier chunks already carry their new T_next). -/
def frameStep (dt : ℚ) (tm : Int × Int → Nat → ℚ) (wa : World) (k : Int × Int) : World :=
  match wa.findChunk k.1 k.2 with
  | none => wa
  | some C => wa.setChunk k (computeChunk wa C dt (tm k))

/-- compute_frame_to_backbuffers (sim_engine.hpp): iterate the chunk map,
updating each chunk in place; `tm` is the wall-clock oracle per chunk and
section. -/
def compute_frame_to_backbuffers (world : World) (dt : ℚ)
    (tm : Int × Int → Nat → ℚ) : World :=
  (world.chunks.map Prod.fst).foldl (frameStep dt tm) world

/-- The O(1) buffer exchange of one chunk (`std::swap(C.T_curr, C.T_next)`). -/
def swapChunk (C : Chunk) : Chunk :=
  { C with T_curr := C.T_next, T_next := C.T_curr }

/-- swap_all_backbuffers (sim_engine.hpp). -/
def swap_all_backbuffers (world : World) : World :=
  ⟨world.chunks.map (fun kc => (kc.1, swapChunk kc.2)), world.materials⟩

/-- step_frame (sim_engine.hpp): compute then swap. -/
def step_frame (world : World) (dt : ℚ) (tm : Int × Int → Nat → ℚ) : World :=
  swap_all_backbuffers (compute_frame_to_backbuffers world dt tm)

/-- fill_section_with (sim_engine.hpp): out-of-range sy is a no-op; else set
every cell of the section (matIx, both temperature buffers, mass), then
markSectionLoaded with (mat_ix ≠ void_ix). -/
def fill_section_with (C : Chunk) (mat_ix : Nat) (T : ℚ) (sy : Int)
    (mats : MaterialLUT) : Chunk :=
  if sy < 0 ∨ 24 ≤ sy then C
  else
    let mdef := (mats.byIx mat_ix).defaultMass
    let keys := sectionCells sy.toNat
    let C' : Chunk :=
      { C with
        matIx := foldWrite (fun _ => mat_ix) keys C.matIx,
        T_curr := foldWrite (fun _ => T) keys C.T_curr,
        T_next := foldWrite (fun _ => T) keys C.T_next,
        mass_kg := foldWrite (fun _ => if mat_ix = C.void_ix then 0 else mdef) keys C.mass_kg }
    markSectionLoaded C' sy (decide (mat_ix ≠ C.void_ix))

/-- world_total_ms_last (sim_engine.hpp): sum of chunk_ms_last. -/
def world_total_ms_last (world : World) : ℚ :=
  world.chunks.foldl (fun acc kc => acc + kc.2.chunk_ms_last) 0

/-- The renderer's SOLID material index (sim_render.hpp `SOLID_IX`). -/
def SOLID_IX : Nat := 1

/-- The renderer's `set_voxel` closure: write T to both buffers, set the
material to SOLID and the mass to SOLID's default mass. -/
def set_voxel (w : World) (C : Chunk) (Tval : ℚ) (x y z : Nat) : Chunk :=
  { C with
    T_curr := updFn C.T_curr (idx x y z) Tval,
    T_next := updFn C.T_next (idx x y z) Tval,
    matIx := updFn C.matIx (idx x y z) SOLID_IX,
    mass_kg := updFn C.mass_kg (idx x y z) (w.materials.byIx SOLID_IX).defaultMass }

/-- The renderer's `paint` closure (sim_render.hpp run_world_ui): guard the
local coordinates, paint one z layer or all 16, then mark the containing
section loaded. -/
def paint (w : World) (C : Chunk) (Tval : ℚ) (localX localY : Int)
    (zSlice : Nat) (allLayers : Bool) : Chunk :=
  if localX < 0 ∨ 16 ≤ localX ∨ localY < 0 ∨ 384 ≤ localY then C
  else
    markSectionLoaded
      (if allLayers then
        (List.range 16).foldl (fun Ca zz => set_voxel w Ca Tval localX.toNat localY.toNat zz) C
      else set_voxel w C Tval localX.toNat localY.toNat zSlice)
      (localY / 16) true

/-- Spiral cursor over chunk coordinates (main.cpp `struct SpiralCursor`). -/
structure SpiralCursor where
  x : Int
  z : Int
  dir : Nat
  legLen : Nat
  stepsOnLeg : Nat
  legsAtLen : Nat
deriving DecidableEq

/-- Initial spiral state: at (0,0), heading +x. -/
def SpiralCursor.start : SpiralCursor := ⟨0, 0, 0, 1, 0, 0⟩

/-- SpiralCursor::next: advance one step, rotate after each leg, lengthen the
leg after every two legs (`(dir + 1) & 3` is `% 4`). -/
def SpiralCursor.next (s : SpiralCursor) : SpiralCursor × (Int × Int) :=
  let x := match s.dir with
    | 0 => s.x + 1
    | 2 => s.x - 1
    | _ => s.x
  let z := match s.dir with
    | 1 => s.z + 1
    | 3 => s.z - 1
    | _ => s.z
  if s.legLen ≤ s.stepsOnLeg + 1 then
    if s.legsAtLen + 1 = 2 then (⟨x, z, (s.dir + 1) % 4, s.legLen + 1, 0, 0⟩, (x, z))
    else (⟨x, z, (s.dir + 1) % 4, s.legLen, 0, s.legsAtLen + 1⟩, (x, z))
  else (⟨x, z, s.dir, s.legLen, s.stepsOnLeg + 1, s.legsAtLen⟩, (x, z))

/-- pick_empty_section (main.cpp): collect the not-loaded section indices;
none if all loaded, else a uniformly drawn one — the PRNG draw is modelled
by the oracle `pick`, reduced modulo the number of candidates. -/
def pick_empty_section (C : Chunk) (pick : Nat) : Option Nat :=
  let empty := (List.range 24).filter (fun sy => !C.sectionLoaded sy)
  if empty.isEmpty then none
  else some (empty.getD (pick % empty.length) 0)

/-- State the VisualStressController (main.cpp) acts on: the server's world,
the chunk pointer `C` (as the coordinate of the chunk it designates), the
spiral cursor, and the sim server's paused flag, which the controller could
flip through `server.setPaused` (it never does). -/
structure GrowthState where
  world : World
  cur : Int × Int
  spiral : SpiralCursor
  simPaused : Bool

/-- One tick of VisualStressController::operator() (main.cpp lines 178-218).
`world_ms` is the measured frame time read under the lock (a wall-clock
oracle); `rm`, `rT` and `pick` model the tick's PRNG draws.  If the budget
is exceeded the tick only sleeps; otherwise it fills a random empty section
of the current chunk, or advances the spiral and seeds a new chunk. -/
def controllerTick (s : GrowthState) (dt world_ms : ℚ) (rm : Material)
    (rT : ℚ) (pick : Nat) : GrowthState :=
  if dt * 1000 < world_ms then s
  else
    match s.world.findChunk s.cur.1 s.cur.2 with
    | none => s
    | some C =>
        match pick_empty_section C pick with
        | some sy =>
            let p := s.world.materials.add rm
            let w1 : World := ⟨s.world.chunks, p.1⟩
            let C' := recomputeSectionLoaded (fill_section_with C p.2 rT (sy : Int) w1.materials)
            { s with world := w1.setChunk s.cur C' }
        | none =>
            let sp := s.spiral.next
            let w1 := s.world.ensureChunk sp.2.1 sp.2.2
            let w2 := w1.modifyChunk sp.2 (fun CC => { CC with void_ix := 0 })
            let p := w2.materials.add rm
            let w3 : World := ⟨w2.chunks, p.1⟩
            let w4 := w3.modifyChunk sp.2
              (fun CC => recomputeSectionLoaded (fill_section_with CC p.2 rT 8 w3.materials))
            { s with world := w4, cur := sp.2, spiral := sp.1 }

/-! ### Basic lemmas about the array model -/

theorem updFn_same {α : Type} (f : Nat → α) (j : Nat) (v : α) : updFn f j v j = v := by
  simp [updFn]

theorem updFn_other {α : Type} (f : Nat → α) (j k : Nat) (v : α) (h : k ≠ j) :
    updFn f j v k = f k := by
  simp [updFn, h]

theorem foldWrite_notMem {α : Type} (val : Nat → α) (keys : List Nat) (f : Nat → α)
    (j : Nat) (h : j ∉ keys) : foldWrite val keys f j = f j := by
  induction keys generalizing f with
  | nil => rfl
  | cons a ks ih =>
      simp only [List.mem_cons, not_or] at h
      simpa [foldWrite, List.foldl_cons, updFn_other _ _ _ _ h.1] using
        (by
          have := ih (updFn f a (val a)) h.2
          simpa [foldWrite] using this.trans (updFn_other f a j (val a) h.1))

theorem foldWrite_mem {α : Type} (val : Nat → α) (keys : List Nat) (f : Nat → α)
    (j : Nat) (h : j ∈ keys) : foldWrite val keys f j = val j := by
  induction keys generalizing f with
  | nil => cases h
  | cons a ks ih =>
      by_cases hj : j ∈ ks
      · simpa [foldWrite] using ih (updFn f a (val a)) hj
      · have haj : j = a := by
          rcases List.mem_cons.mp h with h' | h'
          · exact h'
          · exact absurd h' hj
        subst haj
        have : foldWrite val ks (updFn f j (val j)) j = updFn f j (val j) j :=
          foldWrite_notMem val ks _ j hj
        simpa [foldWrite, updFn_same] using this

theorem keyOf_eq (sy i : Nat) : keyOf sy i = 256 * sy + i % 256 + 6144 * (i / 256) := by
  simp only [keyOf, idx]
  omega

/-- Arithmetic characterization of membership in a section's cell list
(for in-range section indices). -/
theorem mem_sectionCells_iff (sy j : Nat) (hsy : sy < 24) :
    j ∈ sectionCells sy ↔ j < 98304 ∧ 256 * sy ≤ j % 6144 ∧ j % 6144 < 256 * sy + 256 := by
  simp only [sectionCells, List.mem_map, List.mem_range]
  constructor
  · rintro ⟨i, hi, rfl⟩
    rw [keyOf_eq]
    omega
  · rintro ⟨h1, h2, h3⟩
    refine ⟨j % 6144 - 256 * sy + 256 * (j / 6144), by omega, ?_⟩
    rw [keyOf_eq]
    omega

/-- Membership of a coordinate triple's cell index in a section list. -/
theorem idx_mem_sectionCells (sy x y z : Nat) (hsy : sy < 24) (hx : x < 16)
    (hy : y < 384) (hz : z < 16) :
    idx x y z ∈ sectionCells sy ↔ 16 * sy ≤ y ∧ y < 16 * sy + 16 := by
  rw [mem_sectionCells_iff sy _ hsy]
  simp only [idx]
  omega

/-- The coordinate decoding used by the kernel loop body recovers the
coordinates of an in-range cell index. -/
theorem idx_decode (x y z : Nat) (hx : x < 16) (hy : y < 384) (hz : z < 16) :
    idx x y z % 16 = x ∧ idx x y z / 16 % 384 = y ∧ idx x y z / 6144 = z := by
  simp only [idx]
  omega

attribute [irreducible] sectionCells

/-- Generic foldl invariant preservation. -/
theorem foldl_invariant {α β : Type} (P : β → Prop) (f : β → α → β) :
    ∀ (l : List α) (b : β), P b → (∀ b' a, a ∈ l → P b' → P (f b' a)) → P (l.foldl f b) := by
  intro l
  induction l with
  | nil => intro b hb _; exact hb
  | cons a as ih =>
      intro b hb hf
      exact ih (f b a) (hf b a (List.mem_cons_self a as) hb)
        (fun b' a' ha' => hf b' a' (List.mem_cons_of_mem a ha'))

/-! ### What the kernel reads

The kernel for one chunk writes only that chunk's `T_next` and timing
fields; everything it reads from its chunk argument is captured by
`SameReads`, and everything it reads from the world by `WorldReads`. -/

/-- Two chunks agree on every field the kernel reads. -/
def SameReads (Ca C : Chunk) : Prop :=
  Ca.matIx = C.matIx ∧ Ca.T_curr = C.T_curr ∧ Ca.mass_kg = C.mass_kg ∧
  Ca.void_ix = C.void_ix ∧ Ca.cx = C.cx ∧ Ca.cz = C.cz ∧
  Ca.sectionLoaded = C.sectionLoaded

theorem SameReads.refl (C : Chunk) : SameReads C C :=
  ⟨rfl, rfl, rfl, rfl, rfl, rfl, rfl⟩

theorem sample_neighbor_congr (w : World) (Ca C : Chunk) (x y z dx dy dz : Int)
    (h : SameReads Ca C) :
    sample_neighbor_T w Ca x y z dx dy dz = sample_neighbor_T w C x y z dx dy dz := by
  obtain ⟨h1, h2, h3, h4, h5, h6, h7⟩ := h
  obtain ⟨m1, tc1, tn1, ms1, v1, a1, a2, cm1, sm1, sl1⟩ := Ca
  obtain ⟨m2, tc2, tn2, ms2, v2, b1, b2, cm2, sm2, sl2⟩ := C
  replace h1 : m1 = m2 := h1
  replace h2 : tc1 = tc2 := h2
  replace h4 : v1 = v2 := h4
  replace h5 : a1 = b1 := h5
  replace h6 : a2 = b2 := h6
  subst h1 h2 h4 h5 h6
  rfl

theorem cellNext_congr (w : World) (Ca C : Chunk) (mats : MaterialLUT) (dt : ℚ)
    (x y z : Nat) (h : SameReads Ca C) :
    cellNext w Ca mats dt x y z = cellNext w C mats dt x y z := by
  obtain ⟨h1, h2, h3, h4, h5, h6, h7⟩ := h
  obtain ⟨m1, tc1, tn1, ms1, v1, a1, a2, cm1, sm1, sl1⟩ := Ca
  obtain ⟨m2, tc2, tn2, ms2, v2, b1, b2, cm2, sm2, sl2⟩ := C
  replace h1 : m1 = m2 := h1
  replace h2 : tc1 = tc2 := h2
  replace h3 : ms1 = ms2 := h3
  replace h4 : v1 = v2 := h4
  replace h5 : a1 = b1 := h5
  replace h6 : a2 = b2 := h6
  subst h1 h2 h3 h4 h5 h6
  rfl

theorem SameReads.trans {Ca Cb Cc : Chunk} (h1 : SameReads Ca Cb)
    (h2 : SameReads Cb Cc) : SameReads Ca Cc := by
  obtain ⟨a1, a2, a3, a4, a5, a6, a7⟩ := h1
  obtain ⟨b1, b2, b3, b4, b5, b6, b7⟩ := h2
  exact ⟨a1.trans b1, a2.trans b2, a3.trans b3, a4.trans b4, a5.trans b5,
    a6.trans b6, a7.trans b7⟩

theorem sameReads_update_timings (X : Chunk) (u : Nat → ℚ) (c : ℚ) :
    SameReads { X with section_ms_last := u, chunk_ms_last := c } X :=
  ⟨rfl, rfl, rfl, rfl, rfl, rfl, rfl⟩

theorem simulate_sameReads (w : World) (Ca : Chunk) (mats : MaterialLUT)
    (sy : Nat) (dt : ℚ) :
    SameReads (simulate_section_16x16x16 w Ca mats sy dt) Ca := by
  unfold simulate_section_16x16x16
  exact ⟨rfl, rfl, rfl, rfl, rfl, rfl, rfl⟩

theorem sectionStep_sameReads (w : World) (dt : ℚ) (tm : Nat → ℚ) (Ca : Chunk)
    (sy : Nat) : SameReads (sectionStep w dt tm Ca sy) Ca := by
  by_cases h : Ca.sectionLoaded sy = true
  · have he : sectionStep w dt tm Ca sy =
        { simulate_section_16x16x16 w Ca w.materials sy dt with
          section_ms_last :=
            updFn (simulate_section_16x16x16 w Ca w.materials sy dt).section_ms_last sy (tm sy),
          chunk_ms_last :=
            (simulate_section_16x16x16 w Ca w.materials sy dt).chunk_ms_last + tm sy } := by
      unfold sectionStep
      rw [if_pos h]
    rw [he]
    exact (sameReads_update_timings (simulate_section_16x16x16 w Ca w.materials sy dt)
      _ _).trans (simulate_sameReads w Ca w.materials sy dt)
  · have he : sectionStep w dt tm Ca sy = Ca := by
      unfold sectionStep
      rw [if_neg h]
    rw [he]
    exact SameReads.refl Ca

theorem computeChunk_sameReads (w : World) (C : Chunk) (dt : ℚ) (tm : Nat → ℚ) :
    SameReads (computeChunk w C dt tm) C := by
  unfold computeChunk
  exact foldl_invariant (fun Ca => SameReads Ca C) _ (List.range 24) _
    (SameReads.refl _)
    (fun Ca sy _ h => (sectionStep_sameReads w dt tm Ca sy).trans h)

/-! ### Pointwise characterization of the section kernel -/

theorem simulate_T_next (w : World) (Ca : Chunk) (mats : MaterialLUT) (sy : Nat)
    (dt : ℚ) (x y z : Nat) (hsy : sy < 24) (hx : x < 16) (hy : y < 384) (hz : z < 16) :
    (simulate_section_16x16x16 w Ca mats sy dt).T_next (idx x y z) =
      if 16 * sy ≤ y ∧ y < 16 * sy + 16 then cellNext w Ca mats dt x y z
      else Ca.T_next (idx x y z) := by
  simp only [simulate_section_16x16x16]
  by_cases h : 16 * sy ≤ y ∧ y < 16 * sy + 16
  · rw [if_pos h, foldWrite_mem _ _ _ _ ((idx_mem_sectionCells sy x y z hsy hx hy hz).mpr h)]
    obtain ⟨d1, d2, d3⟩ := idx_decode x y z hx hy hz
    rw [d1, d2, d3]
  · rw [if_neg h, foldWrite_notMem _ _ _ _
      (fun hmem => h ((idx_mem_sectionCells sy x y z hsy hx hy hz).mp hmem))]

theorem sectionFold_T_next (w : World) (C : Chunk) (dt : ℚ) (tm : Nat → ℚ)
    (x y z : Nat) (hx : x < 16) (hy : y < 384) (hz : z < 16) :
    ∀ (L : List Nat) (Ca : Chunk), (∀ s ∈ L, s < 24) → SameReads Ca C →
      (L.foldl (sectionStep w dt tm) Ca).T_next (idx x y z) =
        if y / 16 ∈ L ∧ C.sectionLoaded (y / 16) = true then
          cellNext w C w.materials dt x y z
        else Ca.T_next (idx x y z) := by
  intro L
  induction L with
  | nil => intro Ca _ _; simp
  | cons sy L' ih =>
      intro Ca hL hCa
      have hsy : sy < 24 := hL sy (List.mem_cons_self sy L')
      have hL' : ∀ s ∈ L', s < 24 := fun s hs => hL s (List.mem_cons_of_mem sy hs)
      have hstep : SameReads (sectionStep w dt tm Ca sy) C :=
        (sectionStep_sameReads w dt tm Ca sy).trans hCa
      rw [List.foldl_cons, ih (sectionStep w dt tm Ca sy) hL' hstep]
      by_cases htail : y / 16 ∈ L' ∧ C.sectionLoaded (y / 16) = true
      · rw [if_pos htail, if_pos ⟨List.mem_cons_of_mem sy htail.1, htail.2⟩]
      · rw [if_neg htail]
        by_cases hload : Ca.sectionLoaded sy = true
        · have hCload : C.sectionLoaded sy = true := by rw [← hCa.2.2.2.2.2.2]; exact hload
          have hT : (sectionStep w dt tm Ca sy).T_next (idx x y z) =
              if 16 * sy ≤ y ∧ y < 16 * sy + 16 then cellNext w Ca w.materials dt x y z
              else Ca.T_next (idx x y z) := by
            simp only [sectionStep, hload, if_true]
            exact simulate_T_next w Ca w.materials sy dt x y z hsy hx hy hz
          rw [hT]
          by_cases hsec : y / 16 = sy
          · have hyb : 16 * sy ≤ y ∧ y < 16 * sy + 16 := by omega
            rw [if_pos hyb,
              if_pos ⟨by rw [hsec]; exact List.mem_cons_self sy L', by rw [hsec]; exact hCload⟩]
            exact cellNext_congr w Ca C w.materials dt x y z hCa
          · have hyb : ¬(16 * sy ≤ y ∧ y < 16 * sy + 16) := by omega
            rw [if_neg hyb, if_neg]
            rintro ⟨hmem, hCl⟩
            rcases List.mem_cons.mp hmem with h' | h'
            · exact hsec h'
            · exact htail ⟨h', hCl⟩
        · have hstep_eq : sectionStep w dt tm Ca sy = Ca := by
            simp only [sectionStep, hload]
            simp
          rw [hstep_eq, if_neg]
          rintro ⟨hmem, hCl⟩
          rcases List.mem_cons.mp hmem with h' | h'
          · have : Ca.sectionLoaded sy = true := by rw [hCa.2.2.2.2.2.2, ← h']; exact hCl
            exact hload this
          · exact htail ⟨h', hCl⟩

/-- Pointwise effect of the per-chunk frame computation on the back buffer:
the cell of a loaded section is recomputed by the kernel from the front
buffer; every other cell of T_next is untouched. -/
theorem computeChunk_T_next (w : World) (C : Chunk) (dt : ℚ) (tm : Nat → ℚ)
    (x y z : Nat) (hx : x < 16) (hy : y < 384) (hz : z < 16) :
    (computeChunk w C dt tm).T_next (idx x y z) =
      if C.sectionLoaded (y / 16) = true then cellNext w C w.materials dt x y z
      else C.T_next (idx x y z) := by
  unfold computeChunk
  have h := sectionFold_T_next w C dt tm x y z hx hy hz (List.range 24)
    { C with chunk_ms_last := 0, section_ms_last := fun _ => 0 }
    (fun s hs => List.mem_range.mp hs) ⟨rfl, rfl, rfl, rfl, rfl, rfl, rfl⟩
  rw [h]
  have hmem : y / 16 ∈ List.range 24 := List.mem_range.mpr (by omega)
  by_cases hload : C.sectionLoaded (y / 16) = true
  · rw [if_pos ⟨hmem, hload⟩, if_pos hload]
  · rw [if_neg (fun h => hload h.2), if_neg hload]

/-! ### Which chunks a frame touches

The chunk loop of compute_frame_to_backbuffers processes every entry of the
map exactly once (the keys are unique); each output entry is the result of
`computeChunk` — against the world as it stood mid-loop — applied to the
entry's original chunk. -/

theorem findChunk_mem (w : World) (a b : Int) (C : Chunk)
    (h : w.findChunk a b = some C) : ((a, b), C) ∈ w.chunks := by
  unfold World.findChunk at h
  obtain ⟨kc, hfind, hsnd⟩ := Option.map_eq_some'.mp h
  have hmem := List.mem_of_find?_eq_some hfind
  have hp := List.find?_some hfind
  have hkey : kc.1 = (a, b) := of_decide_eq_true hp
  have : kc = ((a, b), C) := by
    obtain ⟨k1, k2⟩ := kc
    simp only at hkey hsnd
    rw [hkey, hsnd]
  rwa [this] at hmem

theorem findChunk_none (w : World) (a b : Int)
    (h : w.findChunk a b = none) : ∀ kc ∈ w.chunks, kc.1 ≠ (a, b) := by
  unfold World.findChunk at h
  rw [Option.map_eq_none'] at h
  intro kc hmem hkey
  have := List.find?_eq_none.mp h kc hmem
  exact this (decide_eq_true hkey)

/-- Every chunk entry surviving the frame loop over the key list `rest` is,
at the end, the `computeChunk` image of an original entry of `w`. -/
theorem frameFold_processed (w : World) (dt : ℚ) (tm : Int × Int → Nat → ℚ) :
    ∀ (rest : List (Int × Int)) (wa : World), rest.Nodup →
      (∀ kc, kc ∈ wa.chunks → kc.1 ∈ rest → kc ∈ w.chunks) →
      (∀ kc, kc ∈ wa.chunks → kc.1 ∉ rest →
        ∃ C₀ wb, ((kc.1, C₀) ∈ w.chunks ∧ kc.2 = computeChunk wb C₀ dt (tm kc.1))) →
      ∀ kc, kc ∈ (rest.foldl (frameStep dt tm) wa).chunks →
        ∃ C₀ wb, ((kc.1, C₀) ∈ w.chunks ∧ kc.2 = computeChunk wb C₀ dt (tm kc.1)) := by
  intro rest
  induction rest with
  | nil =>
      intro wa _ _ h2 kc hmem
      exact h2 kc hmem (List.not_mem_nil kc.1)
  | cons k rest' ih =>
      intro wa hnod h1 h2 kc hmem
      have hknot : k ∉ rest' := (List.nodup_cons.mp hnod).1
      have hnod' : rest'.Nodup := (List.nodup_cons.mp hnod).2
      rw [List.foldl_cons] at hmem
      rcases hfs : wa.findChunk k.1 k.2 with _ | C
      · have hstep : frameStep dt tm wa k = wa := by
          unfold frameStep
          rw [hfs]
        rw [hstep] at hmem
        have hnotk : ∀ kc' ∈ wa.chunks, kc'.1 ≠ k := by
          intro kc' h' hk
          exact findChunk_none wa k.1 k.2 hfs kc' h' (by rw [hk])
        refine ih wa hnod' ?_ ?_ kc hmem
        · intro kc' h' hr'
          exact h1 kc' h' (List.mem_cons_of_mem k hr')
        · intro kc' h' hr'
          refine h2 kc' h' ?_
          intro hr
          rcases List.mem_cons.mp hr with h'' | h''
          · exact hnotk kc' h' h''
          · exact hr' h''
      · have hCmem : (k, C) ∈ wa.chunks := by
          have := findChunk_mem wa k.1 k.2 C hfs
          simpa using this
        have hCorig : (k, C) ∈ w.chunks :=
          h1 (k, C) hCmem (List.mem_cons_self k rest')
        have hstep : frameStep dt tm wa k = wa.setChunk k (computeChunk wa C dt (tm k)) := by
          unfold frameStep
          rw [hfs]
        rw [hstep] at hmem
        refine ih _ hnod' ?_ ?_ kc hmem
        · intro kc' h' hr'
          simp only [World.setChunk, World.modifyChunk, List.mem_map] at h'
          obtain ⟨kc0, hkc0, heq⟩ := h'
          by_cases hk0 : kc0.1 = k
          · rw [if_pos hk0] at heq
            subst heq
            dsimp only at hr'
            rw [hk0] at hr'
            exact absurd hr' hknot
          · rw [if_neg hk0] at heq
            subst heq
            exact h1 kc0 hkc0 (List.mem_cons_of_mem k hr')
        · intro kc' h' hr'
          simp only [World.setChunk, World.modifyChunk, List.mem_map] at h'
          obtain ⟨kc0, hkc0, heq⟩ := h'
          by_cases hk0 : kc0.1 = k
          · rw [if_pos hk0] at heq
            subst heq
            dsimp only
            rw [hk0]
            exact ⟨C, wa, hCorig, rfl⟩
          · rw [if_neg hk0] at heq
            subst heq
            refine h2 kc0 hkc0 ?_
            intro hr
            rcases List.mem_cons.mp hr with h'' | h''
            · exact hk0 h''
            · exact hr' h''

/-- Every chunk of a computed frame is the `computeChunk` image (against some
intermediate world) of the chunk previously stored under the same key. -/
theorem compute_frame_processed (w : World) (dt : ℚ) (tm : Int × Int → Nat → ℚ)
    (hnod : (w.chunks.map Prod.fst).Nodup) :
    ∀ kc, kc ∈ (compute_frame_to_backbuffers w dt tm).chunks →
      ∃ C₀ wb, ((kc.1, C₀) ∈ w.chunks ∧ kc.2 = computeChunk wb C₀ dt (tm kc.1)) := by
  intro kc hmem
  refine frameFold_processed w dt tm (w.chunks.map Prod.fst) w hnod ?_ ?_ kc hmem
  · intro kc' h' _
    exact h'
  · intro kc' h' hr'
    exact absurd (List.mem_map.mpr ⟨kc', h', rfl⟩) hr'

/-! ### Concrete materials and worlds used by witnesses and scenarios -/

/-- The interactive SOLID material of init_one_visible_section (main.cpp):
`Material{500.0f, 100.0f, 1000.0f}` with value-initialized molar mass. -/
def matSOLID : Material := ⟨500, 100, 1000, 0⟩

/-- Material table of the interactive setup: VOID at 0, SOLID at 1. -/
def s1mats : MaterialLUT := ⟨[Material.zero, matSOLID]⟩

/-- All-void chunk carrying a temperature ramp in the front buffer. -/
def voidRampChunk : Chunk := { freshChunk 0 0 with T_curr := fun j => (j : ℚ) }

/-! ### Exhaustive shape of a neighbor sample -/

/-- Every neighbor sample is either the fixed failure payload or an existing
cell's front-buffer data. -/
theorem sample_cases (w : World) (C : Chunk) (x y z dx dy dz : Int) :
    sample_neighbor_T w C x y z dx dy dz = ⟨0, C.void_ix, false⟩ ∨
    ∃ (CC : Chunk) (i : Nat),
      sample_neighbor_T w C x y z dx dy dz = ⟨CC.T_curr i, CC.matIx i, true⟩ := by
  unfold sample_neighbor_T
  simp only
  repeat'
    first
      | exact Or.inl rfl
      | exact Or.inr ⟨_, _, rfl⟩
      | split

/-- The kernel clamp as an interval clamp. -/
theorem clampT_eq_max_min (t : ℚ) : clampT t = max 0 (min 6000 t) := by
  unfold clampT
  split_ifs with h1 h2
  · rw [min_eq_right (by linarith), max_eq_left (by linarith)]
  · rw [min_eq_left (by linarith), max_eq_right (by norm_num)]
  · rw [min_eq_right (by linarith), max_eq_right (by linarith)]

/-- C10: whenever sample_neighbor_T reports a non-existent neighbor, the
returned sample carries the fixed dummy payload T = 0 and mix = the source
chunk's void index, so a caller ignoring the flag would see a 0 K void
cell. -/
theorem C10_dummy_payload (w : World) (C : Chunk) (x y z dx dy dz : Int)
    (h : (sample_neighbor_T w C x y z dx dy dz).ex = false) :
    (sample_neighbor_T w C x y z dx dy dz).T = 0 ∧
    (sample_neighbor_T w C x y z dx dy dz).mix = C.void_ix := by
  rcases sample_cases w C x y z dx dy dz with hc | ⟨CC, i, hc⟩
  · rw [hc]
    exact ⟨rfl, rfl⟩
  · rw [hc] at h
    cases h

/-- C10 witness: in a world with no chunks, the sample below the world floor
(y = 0, dy = -1) does not exist and carries T = 0 and mix = void_ix = 0. -/
theorem C10_witness :
    (sample_neighbor_T ⟨[], s1mats⟩ voidRampChunk 3 0 4 0 (-1) 0).ex = false ∧
    (sample_neighbor_T ⟨[], s1mats⟩ voidRampChunk 3 0 4 0 (-1) 0).T = 0 ∧
    (sample_neighbor_T ⟨[], s1mats⟩ voidRampChunk 3 0 4 0 (-1) 0).mix =
      voidRampChunk.void_ix :=
  ⟨by decide, C10_dummy_payload ⟨[], s1mats⟩ voidRampChunk 3 0 4 0 (-1) 0 (by decide)⟩

/-- C6: swap_all_backbuffers is an involution on the world: two consecutive
swaps restore both buffers of every chunk, and a single swap exchanges
exactly the two temperature buffers of every chunk, leaving the material
table, keys, material indices, masses, timings and section flags
unchanged. -/
theorem C6_swap_involution (w : World) :
    swap_all_backbuffers (swap_all_backbuffers w) = w ∧
    (swap_all_backbuffers w).materials = w.materials ∧
    List.Forall₂
      (fun a b : (Int × Int) × Chunk =>
        b.1 = a.1 ∧ b.2.T_curr = a.2.T_next ∧ b.2.T_next = a.2.T_curr ∧
        b.2.matIx = a.2.matIx ∧ b.2.mass_kg = a.2.mass_kg ∧
        b.2.void_ix = a.2.void_ix ∧ b.2.cx = a.2.cx ∧ b.2.cz = a.2.cz ∧
        b.2.chunk_ms_last = a.2.chunk_ms_last ∧
        b.2.section_ms_last = a.2.section_ms_last ∧
        b.2.sectionLoaded = a.2.sectionLoaded)
      w.chunks (swap_all_backbuffers w).chunks := by
  refine ⟨?_, rfl, ?_⟩
  · unfold swap_all_backbuffers
    simp only [List.map_map]
    have hcomp :
        ((fun kc : (Int × Int) × Chunk => (kc.1, swapChunk kc.2)) ∘
          fun kc : (Int × Int) × Chunk => (kc.1, swapChunk kc.2)) = id := by
      funext kc
      show (kc.1, swapChunk (swapChunk kc.2)) = kc
      have : swapChunk (swapChunk kc.2) = kc.2 := rfl
      rw [this]
    rw [hcomp, List.map_id]
  · unfold swap_all_backbuffers
    simp only
    rw [List.forall₂_map_right_iff]
    rw [List.forall₂_same]
    intro kc _
    exact ⟨rfl, rfl, rfl, rfl, rfl, rfl, rfl, rfl, rfl, rfl, rfl⟩

/-! ### C9: the material table -/

/-- A table already holding 2^16 materials, at which the narrowing cast in
`add` wraps. -/
def bigLUT : MaterialLUT := ⟨List.replicate 65536 Material.zero⟩

/-- A one-entry table for the witness. -/
def smallLUT : MaterialLUT := ⟨[Material.zero]⟩

/-- C9 counterexample: with 65536 entries already interned, `add` returns
index (65536 % 2^16) = 0, not the previous size 65536 — the uint16_t cast
wraps, so the claim fails as stated for every table state. -/
theorem MaterialLUT.add_snd (t : MaterialLUT) (m : Material) :
    (t.add m).2 = t.table.length % 65536 := by
  show ((t.table ++ [m]).length - 1) % 65536 = t.table.length % 65536
  rw [List.length_append, List.length_singleton]
  omega

theorem C9_counterexample :
    (bigLUT.add Material.zero).2 ≠ bigLUT.table.length := by
  have hlen : bigLUT.table.length = 65536 := by
    show (List.replicate 65536 Material.zero).length = 65536
    rw [List.length_replicate]
  rw [MaterialLUT.add_snd, hlen]
  norm_num

/-- C9 (amended): provided the table holds fewer than 2^16 entries, add
appends and returns the previous size, byIx at the returned index yields the
added material, and every index below the previous size keeps denoting the
same material after the add. -/
theorem C9_amended (t : MaterialLUT) (m : Material) (hlen : t.table.length < 65536) :
    (t.add m).1.table = t.table ++ [m] ∧
    (t.add m).2 = t.table.length ∧
    (t.add m).1.byIx (t.add m).2 = m ∧
    ∀ ix, ix < t.table.length → (t.add m).1.byIx ix = t.byIx ix := by
  have h2 : (t.add m).2 = t.table.length := by
    simp only [MaterialLUT.add, List.length_append, List.length_singleton]
    omega
  refine ⟨rfl, h2, ?_, ?_⟩
  · rw [h2]
    show (t.table ++ [m]).getD t.table.length Material.zero = m
    rw [List.getD_append_right t.table [m] Material.zero t.table.length (le_refl _)]
    simp
  · intro ix hix
    show (t.table ++ [m]).getD ix Material.zero = t.table.getD ix Material.zero
    exact List.getD_append t.table [m] Material.zero ix hix

/-- C1: for every cell of the updated section, a void cell's back-buffer
entry is a copy of its front-buffer entry, and every other cell receives
clamp(T_self + (dt / Cth) * dT, 0, 6000), with Cth = max(1e-8, mass *
heat_capacity) and dT the sum over the six axis-aligned neighbors (skipping
non-existent ones) of k_eff * (T_neighbor - T_self), where k_eff = 0 if
either side's conductivity is ≤ 0 and the harmonic mean 2*k1*k2/(k1+k2)
otherwise. -/
theorem C1_stencil_update (world : World) (C : Chunk) (mats : MaterialLUT)
    (sy : Nat) (dt : ℚ) (x y z : Nat) (hsy : sy < 24) (hx : x < 16)
    (hy1 : 16 * sy ≤ y) (hy2 : y < 16 * sy + 16) (hz : z < 16) :
    (simulate_section_16x16x16 world C mats sy dt).T_next (idx x y z) =
      if C.matIx (idx x y z) = C.void_ix then C.T_curr (idx x y z)
      else
        max 0 (min 6000
          (C.T_curr (idx x y z) +
            dt / max (1 / 100000000)
                (C.mass_kg (idx x y z) *
                  (mats.byIx (C.matIx (idx x y z))).heatCapacity) *
              ((if (sample_neighbor_T world C x y z 1 0 0).ex = true then
                  (if (mats.byIx (C.matIx (idx x y z))).thermalConductivity ≤ 0 ∨
                      (mats.byIx (sample_neighbor_T world C x y z 1 0 0).mix).thermalConductivity ≤ 0
                    then 0
                    else 2 * (mats.byIx (C.matIx (idx x y z))).thermalConductivity *
                        (mats.byIx (sample_neighbor_T world C x y z 1 0 0).mix).thermalConductivity /
                        ((mats.byIx (C.matIx (idx x y z))).thermalConductivity +
                          (mats.byIx (sample_neighbor_T world C x y z 1 0 0).mix).thermalConductivity)) *
                    ((sample_neighbor_T world C x y z 1 0 0).T - C.T_curr (idx x y z))
                  else 0) +
                (if (sample_neighbor_T world C x y z (-1) 0 0).ex = true then
                  (if (mats.byIx (C.matIx (idx x y z))).thermalConductivity ≤ 0 ∨
                      (mats.byIx (sample_neighbor_T world C x y z (-1) 0 0).mix).thermalConductivity ≤ 0
                    then 0
                    else 2 * (mats.byIx (C.matIx (idx x y z))).thermalConductivity *
                        (mats.byIx (sample_neighbor_T world C x y z (-1) 0 0).mix).thermalConductivity /
                        ((mats.byIx (C.matIx (idx x y z))).thermalConductivity +
                          (mats.byIx (sample_neighbor_T world C x y z (-1) 0 0).mix).thermalConductivity)) *
                    ((sample_neighbor_T world C x y z (-1) 0 0).T - C.T_curr (idx x y z))
                  else 0) +
                (if (sample_neighbor_T world C x y z 0 1 0).ex = true then
                  (if (mats.byIx (C.matIx (idx x y z))).thermalConductivity ≤ 0 ∨
                      (mats.byIx (sample_neighbor_T world C x y z 0 1 0).mix).thermalConductivity ≤ 0
                    then 0
                    else 2 * (mats.byIx (C.matIx (idx x y z))).thermalConductivity *
                        (mats.byIx (sample_neighbor_T world C x y z 0 1 0).mix).thermalConductivity /
                        ((mats.byIx (C.matIx (idx x y z))).thermalConductivity +
                          (mats.byIx (sample_neighbor_T world C x y z 0 1 0).mix).thermalConductivity)) *
                    ((sample_neighbor_T world C x y z 0 1 0).T - C.T_curr (idx x y z))
                  else 0) +
                (if (sample_neighbor_T world C x y z 0 (-1) 0).ex = true then
                  (if (mats.byIx (C.matIx (idx x y z))).thermalConductivity ≤ 0 ∨
                      (mats.byIx (sample_neighbor_T world C x y z 0 (-1) 0).mix).thermalConductivity ≤ 0
                    then 0
                    else 2 * (mats.byIx (C.matIx (idx x y z))).thermalConductivity *
                        (mats.byIx (sample_neighbor_T world C x y z 0 (-1) 0).mix).thermalConductivity /
                        ((mats.byIx (C.matIx (idx x y z))).thermalConductivity +
                          (mats.byIx (sample_neighbor_T world C x y z 0 (-1) 0).mix).thermalConductivity)) *
                    ((sample_neighbor_T world C x y z 0 (-1) 0).T - C.T_curr (idx x y z))
                  else 0) +
                (if (sample_neighbor_T world C x y z 0 0 1).ex = true then
                  (if (mats.byIx (C.matIx (idx x y z))).thermalConductivity ≤ 0 ∨
                      (mats.byIx (sample_neighbor_T world C x y z 0 0 1).mix).thermalConductivity ≤ 0
                    then 0
                    else 2 * (mats.byIx (C.matIx (idx x y z))).thermalConductivity *
                        (mats.byIx (sample_neighbor_T world C x y z 0 0 1).mix).thermalConductivity /
                        ((mats.byIx (C.matIx (idx x y z))).thermalConductivity +
                          (mats.byIx (sample_neighbor_T world C x y z 0 0 1).mix).thermalConductivity)) *
                    ((sample_neighbor_T world C x y z 0 0 1).T - C.T_curr (idx x y z))
                  else 0) +
                (if (sample_neighbor_T world C x y z 0 0 (-1)).ex = true then
                  (if (mats.byIx (C.matIx (idx x y z))).thermalConductivity ≤ 0 ∨
                      (mats.byIx (sample_neighbor_T world C x y z 0 0 (-1)).mix).thermalConductivity ≤ 0
                    then 0
                    else 2 * (mats.byIx (C.matIx (idx x y z))).thermalConductivity *
                        (mats.byIx (sample_neighbor_T world C x y z 0 0 (-1)).mix).thermalConductivity /
                        ((mats.byIx (C.matIx (idx x y z))).thermalConductivity +
                          (mats.byIx (sample_neighbor_T world C x y z 0 0 (-1)).mix).thermalConductivity)) *
                    ((sample_neighbor_T world C x y z 0 0 (-1)).T - C.T_curr (idx x y z))
                  else 0)))) := by
  have hy : y < 384 := by omega
  rw [simulate_T_next world C mats sy dt x y z hsy hx hy hz, if_pos ⟨hy1, hy2⟩]
  simp only [cellNext, fluxTerm, k_eff, clampT_eq_max_min]

/-- C1 witness: in a one-material world holding an all-void ramp chunk, the
kernel formula at cell (3, 130, 2) of section 8 reduces to the void branch,
which copies the ramp's front-buffer value 14371 = idx 3 130 2. -/
theorem C1_witness :
    (simulate_section_16x16x16 ⟨[], s1mats⟩ voidRampChunk s1mats 8 1).T_next
      (idx 3 130 2) = 14371 := by
  have h := C1_stencil_update ⟨[], s1mats⟩ voidRampChunk s1mats 8 1 3 130 2
    (by norm_num) (by norm_num) (by norm_num) (by norm_num) (by norm_num)
  rw [h]
  decide

/-! ### Characterization of fill_section_with (helpers shared by several
claims) -/

theorem fill_out_of_range (C : Chunk) (mat_ix : Nat) (T : ℚ) (sy : Int)
    (mats : MaterialLUT) (h : sy < 0 ∨ 24 ≤ sy) :
    fill_section_with C mat_ix T sy mats = C := by
  unfold fill_section_with
  rw [if_pos h]

theorem fill_eq (C : Chunk) (mat_ix : Nat) (T : ℚ) (sy : Int)
    (mats : MaterialLUT) (h0 : 0 ≤ sy) (h24 : sy < 24) :
    fill_section_with C mat_ix T sy mats =
      { C with
        matIx := foldWrite (fun _ => mat_ix) (sectionCells sy.toNat) C.matIx,
        T_curr := foldWrite (fun _ => T) (sectionCells sy.toNat) C.T_curr,
        T_next := foldWrite (fun _ => T) (sectionCells sy.toNat) C.T_next,
        mass_kg := foldWrite
          (fun _ => if mat_ix = C.void_ix then 0 else (mats.byIx mat_ix).defaultMass)
          (sectionCells sy.toNat) C.mass_kg,
        sectionLoaded :=
          updFn C.sectionLoaded sy.toNat (decide (mat_ix ≠ C.void_ix)) } := by
  have hne : ¬(sy < 0 ∨ 24 ≤ sy) := by omega
  unfold fill_section_with
  rw [if_neg hne]
  unfold markSectionLoaded
  rw [if_pos ⟨h0, h24⟩]

theorem fill_cells_in (C : Chunk) (mat_ix : Nat) (T : ℚ) (sy : Int)
    (mats : MaterialLUT) (h0 : 0 ≤ sy) (h24 : sy < 24) (x y z : Nat)
    (hx : x < 16) (hy : y < 384) (hz : z < 16)
    (hin : 16 * sy.toNat ≤ y ∧ y < 16 * sy.toNat + 16) :
    (fill_section_with C mat_ix T sy mats).matIx (idx x y z) = mat_ix ∧
    (fill_section_with C mat_ix T sy mats).T_curr (idx x y z) = T ∧
    (fill_section_with C mat_ix T sy mats).T_next (idx x y z) = T ∧
    (fill_section_with C mat_ix T sy mats).mass_kg (idx x y z) =
      (if mat_ix = C.void_ix then 0 else (mats.byIx mat_ix).defaultMass) := by
  have hsN : sy.toNat < 24 := by omega
  have hmem : idx x y z ∈ sectionCells sy.toNat :=
    (idx_mem_sectionCells sy.toNat x y z hsN hx hy hz).mpr hin
  rw [fill_eq C mat_ix T sy mats h0 h24]
  exact ⟨foldWrite_mem _ _ _ _ hmem, foldWrite_mem _ _ _ _ hmem,
    foldWrite_mem _ _ _ _ hmem, foldWrite_mem _ _ _ _ hmem⟩

theorem fill_cells_out (C : Chunk) (mat_ix : Nat) (T : ℚ) (sy : Int)
    (mats : MaterialLUT) (h0 : 0 ≤ sy) (h24 : sy < 24) (x y z : Nat)
    (hx : x < 16) (hy : y < 384) (hz : z < 16)
    (hout : ¬(16 * sy.toNat ≤ y ∧ y < 16 * sy.toNat + 16)) :
    (fill_section_with C mat_ix T sy mats).matIx (idx x y z) = C.matIx (idx x y z) ∧
    (fill_section_with C mat_ix T sy mats).T_curr (idx x y z) = C.T_curr (idx x y z) ∧
    (fill_section_with C mat_ix T sy mats).T_next (idx x y z) = C.T_next (idx x y z) ∧
    (fill_section_with C mat_ix T sy mats).mass_kg (idx x y z) = C.mass_kg (idx x y z) := by
  have hsN : sy.toNat < 24 := by omega
  have hmem : idx x y z ∉ sectionCells sy.toNat := fun hm =>
    hout ((idx_mem_sectionCells sy.toNat x y z hsN hx hy hz).mp hm)
  rw [fill_eq C mat_ix T sy mats h0 h24]
  exact ⟨foldWrite_notMem _ _ _ _ hmem, foldWrite_notMem _ _ _ _ hmem,
    foldWrite_notMem _ _ _ _ hmem, foldWrite_notMem _ _ _ _ hmem⟩

theorem fill_flag_self (C : Chunk) (mat_ix : Nat) (T : ℚ) (sy : Int)
    (mats : MaterialLUT) (h0 : 0 ≤ sy) (h24 : sy < 24) :
    (fill_section_with C mat_ix T sy mats).sectionLoaded sy.toNat =
      decide (mat_ix ≠ C.void_ix) := by
  rw [fill_eq C mat_ix T sy mats h0 h24]
  exact updFn_same _ _ _

theorem fill_flag_other (C : Chunk) (mat_ix : Nat) (T : ℚ) (sy : Int)
    (mats : MaterialLUT) (h0 : 0 ≤ sy) (h24 : sy < 24) (s : Nat)
    (hs : s ≠ sy.toNat) :
    (fill_section_with C mat_ix T sy mats).sectionLoaded s = C.sectionLoaded s := by
  rw [fill_eq C mat_ix T sy mats h0 h24]
  exact updFn_other _ _ _ _ hs

theorem fill_void_ix (C : Chunk) (mat_ix : Nat) (T : ℚ) (sy : Int)
    (mats : MaterialLUT) (h0 : 0 ≤ sy) (h24 : sy < 24) :
    (fill_section_with C mat_ix T sy mats).void_ix = C.void_ix := by
  rw [fill_eq C mat_ix T sy mats h0 h24]

/-- C7: for in-range sy, fill_section_with sets every cell of section sy to
mat_ix, both temperature buffers to T, mass to the material's default mass
(0 for the void material index), flips section_loaded[sy] to
(mat_ix ≠ void_ix) — reestablishing invariant I2 at sy — and leaves every
cell outside the section and every other section flag unchanged; for sy
outside [0, 24) the call is a no-op. -/
theorem C7_fill_section (C : Chunk) (mat_ix : Nat) (T : ℚ) (sy : Int)
    (mats : MaterialLUT) :
    (0 ≤ sy → sy < 24 →
      (∀ x y z : Nat, x < 16 → y < 384 → z < 16 →
        ((16 * sy.toNat ≤ y ∧ y < 16 * sy.toNat + 16) →
          (fill_section_with C mat_ix T sy mats).matIx (idx x y z) = mat_ix ∧
          (fill_section_with C mat_ix T sy mats).T_curr (idx x y z) = T ∧
          (fill_section_with C mat_ix T sy mats).T_next (idx x y z) = T ∧
          (fill_section_with C mat_ix T sy mats).mass_kg (idx x y z) =
            (if mat_ix = C.void_ix then 0 else (mats.byIx mat_ix).defaultMass)) ∧
        (¬(16 * sy.toNat ≤ y ∧ y < 16 * sy.toNat + 16) →
          (fill_section_with C mat_ix T sy mats).matIx (idx x y z) = C.matIx (idx x y z) ∧
          (fill_section_with C mat_ix T sy mats).T_curr (idx x y z) = C.T_curr (idx x y z) ∧
          (fill_section_with C mat_ix T sy mats).T_next (idx x y z) = C.T_next (idx x y z) ∧
          (fill_section_with C mat_ix T sy mats).mass_kg (idx x y z) =
            C.mass_kg (idx x y z))) ∧
      (fill_section_with C mat_ix T sy mats).sectionLoaded sy.toNat =
        decide (mat_ix ≠ C.void_ix) ∧
      (∀ s : Nat, s ≠ sy.toNat →
        (fill_section_with C mat_ix T sy mats).sectionLoaded s = C.sectionLoaded s) ∧
      ((fill_section_with C mat_ix T sy mats).sectionLoaded sy.toNat = true ↔
        ∃ x y z : Nat, x < 16 ∧ y < 384 ∧ z < 16 ∧
          16 * sy.toNat ≤ y ∧ y < 16 * sy.toNat + 16 ∧
          (fill_section_with C mat_ix T sy mats).matIx (idx x y z) ≠
            (fill_section_with C mat_ix T sy mats).void_ix)) ∧
    ((sy < 0 ∨ 24 ≤ sy) → fill_section_with C mat_ix T sy mats = C) := by
  constructor
  · intro hsy0 hsy24
    have hsN : sy.toNat < 24 := by omega
    refine ⟨?_, fill_flag_self C mat_ix T sy mats hsy0 hsy24,
      fill_flag_other C mat_ix T sy mats hsy0 hsy24, ?_⟩
    · intro x y z hx hy hz
      exact ⟨fill_cells_in C mat_ix T sy mats hsy0 hsy24 x y z hx hy hz,
        fill_cells_out C mat_ix T sy mats hsy0 hsy24 x y z hx hy hz⟩
    · rw [fill_flag_self C mat_ix T sy mats hsy0 hsy24, decide_eq_true_iff]
      constructor
      · intro hv
        refine ⟨0, 16 * sy.toNat, 0, by norm_num, by omega, by norm_num,
          by omega, by omega, ?_⟩
        rw [(fill_cells_in C mat_ix T sy mats hsy0 hsy24 0 (16 * sy.toNat) 0
          (by norm_num) (by omega) (by norm_num) ⟨by omega, by omega⟩).1,
          fill_void_ix C mat_ix T sy mats hsy0 hsy24]
        exact hv
      · rintro ⟨x, y, z, hx, hy, hz, hy1, hy2, hne'⟩
        rw [(fill_cells_in C mat_ix T sy mats hsy0 hsy24 x y z hx hy hz
          ⟨hy1, hy2⟩).1, fill_void_ix C mat_ix T sy mats hsy0 hsy24] at hne'
        exact hne'
  · exact fill_out_of_range C mat_ix T sy mats

/-- C7 witness: filling section 8 of a fresh chunk with material 1 at 300 K
writes the section and leaves a cell of section 1 untouched; the section
flag becomes true. -/
theorem C7_witness :
    (fill_section_with (freshChunk 0 0) 1 300 8 s1mats).matIx (idx 3 130 2) = 1 ∧
    (fill_section_with (freshChunk 0 0) 1 300 8 s1mats).T_curr (idx 3 130 2) = 300 ∧
    (fill_section_with (freshChunk 0 0) 1 300 8 s1mats).T_curr (idx 3 30 2) =
      (freshChunk 0 0).T_curr (idx 3 30 2) ∧
    (fill_section_with (freshChunk 0 0) 1 300 8 s1mats).sectionLoaded (Int.toNat 8) = true := by
  have h := (C7_fill_section (freshChunk 0 0) 1 300 8 s1mats).1
    (by norm_num) (by norm_num)
  have hcell := (h.1 3 130 2 (by norm_num) (by norm_num) (by norm_num)).1 (by omega)
  have hout := (h.1 3 30 2 (by norm_num) (by norm_num) (by norm_num)).2 (by omega)
  refine ⟨hcell.1, hcell.2.1, hout.2.1, ?_⟩
  rw [h.2.1]
  decide

/-! ### C5: the [0, 6000] K invariant -/

/-- Both buffers of a chunk lie within the clamp range. -/
def ChunkBounded (C : Chunk) : Prop :=
  ∀ j : Nat, 0 ≤ C.T_curr j ∧ C.T_curr j ≤ 6000 ∧ 0 ≤ C.T_next j ∧ C.T_next j ≤ 6000

/-- Every chunk of the world has bounded buffers. -/
def WorldBounded (w : World) : Prop := ∀ kc ∈ w.chunks, ChunkBounded kc.2

theorem clampT_bounds (t : ℚ) : 0 ≤ clampT t ∧ clampT t ≤ 6000 := by
  unfold clampT
  split_ifs with h1 h2
  · exact ⟨le_refl 0, by norm_num⟩
  · exact ⟨by norm_num, le_refl 6000⟩
  · exact ⟨by linarith, by linarith⟩

theorem cellNext_void (w : World) (C : Chunk) (mats : MaterialLUT) (dt : ℚ)
    (x y z : Nat) (h : C.matIx (idx x y z) = C.void_ix) :
    cellNext w C mats dt x y z = C.T_curr (idx x y z) := by
  unfold cellNext
  rw [if_pos h]

theorem cellNext_nonvoid_bounds (w : World) (C : Chunk) (mats : MaterialLUT)
    (dt : ℚ) (x y z : Nat) (h : C.matIx (idx x y z) ≠ C.void_ix) :
    0 ≤ cellNext w C mats dt x y z ∧ cellNext w C mats dt x y z ≤ 6000 := by
  unfold cellNext
  rw [if_neg h]
  exact clampT_bounds _

theorem simulate_T_next_eq (w : World) (Ca : Chunk) (mats : MaterialLUT)
    (sy : Nat) (dt : ℚ) :
    (simulate_section_16x16x16 w Ca mats sy dt).T_next =
      foldWrite (fun j => cellNext w Ca mats dt (j % 16) (j / 16 % 384) (j / 6144))
        (sectionCells sy) Ca.T_next := by
  unfold simulate_section_16x16x16
  rfl

theorem cellNext_bounds (w : World) (C : Chunk) (mats : MaterialLUT) (dt : ℚ)
    (x y z : Nat) (hC : ChunkBounded C) :
    0 ≤ cellNext w C mats dt x y z ∧ cellNext w C mats dt x y z ≤ 6000 := by
  by_cases h : C.matIx (idx x y z) = C.void_ix
  · rw [cellNext_void w C mats dt x y z h]
    exact ⟨(hC (idx x y z)).1, (hC (idx x y z)).2.1⟩
  · exact cellNext_nonvoid_bounds w C mats dt x y z h

theorem simulate_bounds (w : World) (Ca : Chunk) (mats : MaterialLUT)
    (sy : Nat) (dt : ℚ) (hCa : ChunkBounded Ca) :
    ChunkBounded (simulate_section_16x16x16 w Ca mats sy dt) := by
  intro j
  have hcur : (simulate_section_16x16x16 w Ca mats sy dt).T_curr = Ca.T_curr :=
    (simulate_sameReads w Ca mats sy dt).2.1
  have hnext := simulate_T_next_eq w Ca mats sy dt
  rw [hcur, hnext]
  refine ⟨(hCa j).1, (hCa j).2.1, ?_⟩
  by_cases hm : j ∈ sectionCells sy
  · rw [foldWrite_mem _ _ _ _ hm]
    exact cellNext_bounds w Ca mats dt _ _ _ hCa
  · rw [foldWrite_notMem _ _ _ _ hm]
    exact ⟨(hCa j).2.2.1, (hCa j).2.2.2⟩

theorem sectionStep_bounds (w : World) (dt : ℚ) (tm : Nat → ℚ) (Ca : Chunk)
    (sy : Nat) (hCa : ChunkBounded Ca) :
    ChunkBounded (sectionStep w dt tm Ca sy) := by
  by_cases h : Ca.sectionLoaded sy = true
  · have he : sectionStep w dt tm Ca sy =
        { simulate_section_16x16x16 w Ca w.materials sy dt with
          section_ms_last :=
            updFn (simulate_section_16x16x16 w Ca w.materials sy dt).section_ms_last sy (tm sy),
          chunk_ms_last :=
            (simulate_section_16x16x16 w Ca w.materials sy dt).chunk_ms_last + tm sy } := by
      unfold sectionStep
      rw [if_pos h]
    rw [he]
    intro j
    exact simulate_bounds w Ca w.materials sy dt hCa j
  · have he : sectionStep w dt tm Ca sy = Ca := by
      unfold sectionStep
      rw [if_neg h]
    rw [he]
    exact hCa

theorem computeChunk_bounds (w : World) (C : Chunk) (dt : ℚ) (tm : Nat → ℚ)
    (hC : ChunkBounded C) : ChunkBounded (computeChunk w C dt tm) := by
  unfold computeChunk
  refine foldl_invariant ChunkBounded _ (List.range 24) _ ?_ ?_
  · intro j
    exact hC j
  · intro Ca sy _ hCa
    exact sectionStep_bounds w dt tm Ca sy hCa

theorem frameStep_bounds (dt : ℚ) (tm : Int × Int → Nat → ℚ) (wa : World)
    (k : Int × Int) (hwa : WorldBounded wa) : WorldBounded (frameStep dt tm wa k) := by
  rcases hfs : wa.findChunk k.1 k.2 with _ | C
  · have he : frameStep dt tm wa k = wa := by
      unfold frameStep
      rw [hfs]
    rw [he]
    exact hwa
  · have he : frameStep dt tm wa k = wa.setChunk k (computeChunk wa C dt (tm k)) := by
      unfold frameStep
      rw [hfs]
    rw [he]
    intro kc hkc
    simp only [World.setChunk, World.modifyChunk, List.mem_map] at hkc
    obtain ⟨kc0, hkc0, heq⟩ := hkc
    by_cases hk0 : kc0.1 = k
    · rw [if_pos hk0] at heq
      subst heq
      have hCb : ChunkBounded C := by
        have hmem : (k, C) ∈ wa.chunks := by
          have := findChunk_mem wa k.1 k.2 C hfs
          simpa using this
        exact hwa (k, C) hmem
      exact computeChunk_bounds wa C dt (tm k) hCb
    · rw [if_neg hk0] at heq
      subst heq
      exact hwa kc0 hkc0

theorem step_frame_bounds (w : World) (dt : ℚ) (tm : Int × Int → Nat → ℚ)
    (hw : WorldBounded w) : WorldBounded (step_frame w dt tm) := by
  have hcf : WorldBounded (compute_frame_to_backbuffers w dt tm) := by
    unfold compute_frame_to_backbuffers
    refine foldl_invariant WorldBounded _ (w.chunks.map Prod.fst) w hw ?_
    intro wa k _ hwa
    exact frameStep_bounds dt tm wa k hwa
  intro kc hkc
  simp only [step_frame, swap_all_backbuffers, List.mem_map] at hkc
  obtain ⟨kc0, hkc0, heq⟩ := hkc
  subst heq
  intro j
  have h := hcf kc0 hkc0 j
  exact ⟨h.2.2.1, h.2.2.2, h.1, h.2.1⟩

theorem fill_bounded (C : Chunk) (mat_ix : Nat) (T : ℚ) (sy : Int)
    (mats : MaterialLUT) (hC : ChunkBounded C) (hT0 : 0 ≤ T) (hT6 : T ≤ 6000) :
    ChunkBounded (fill_section_with C mat_ix T sy mats) := by
  by_cases hr : sy < 0 ∨ 24 ≤ sy
  · rw [fill_out_of_range C mat_ix T sy mats hr]
    exact hC
  · have h0 : 0 ≤ sy := by omega
    have h24 : sy < 24 := by omega
    rw [fill_eq C mat_ix T sy mats h0 h24]
    intro j
    show 0 ≤ foldWrite (fun _ => T) (sectionCells sy.toNat) C.T_curr j ∧
      foldWrite (fun _ => T) (sectionCells sy.toNat) C.T_curr j ≤ 6000 ∧
      0 ≤ foldWrite (fun _ => T) (sectionCells sy.toNat) C.T_next j ∧
      foldWrite (fun _ => T) (sectionCells sy.toNat) C.T_next j ≤ 6000
    by_cases hm : j ∈ sectionCells sy.toNat
    · rw [foldWrite_mem _ _ _ _ hm, foldWrite_mem _ _ _ _ hm]
      exact ⟨hT0, hT6, hT0, hT6⟩
    · rw [foldWrite_notMem _ _ _ _ hm, foldWrite_notMem _ _ _ _ hm]
      exact hC j

theorem set_voxel_bounds (w : World) (C : Chunk) (Tval : ℚ) (x y z : Nat)
    (hC : ChunkBounded C) (h0 : 0 ≤ Tval) (h6 : Tval ≤ 6000) :
    ChunkBounded (set_voxel w C Tval x y z) := by
  intro j
  show 0 ≤ updFn C.T_curr (idx x y z) Tval j ∧
    updFn C.T_curr (idx x y z) Tval j ≤ 6000 ∧
    0 ≤ updFn C.T_next (idx x y z) Tval j ∧
    updFn C.T_next (idx x y z) Tval j ≤ 6000
  by_cases hj : j = idx x y z
  · subst hj
    rw [updFn_same, updFn_same]
    exact ⟨h0, h6, h0, h6⟩
  · rw [updFn_other _ _ _ _ hj, updFn_other _ _ _ _ hj]
    exact hC j

theorem markSectionLoaded_bounds (C : Chunk) (sy : Int) (b : Bool)
    (hC : ChunkBounded C) : ChunkBounded (markSectionLoaded C sy b) := by
  unfold markSectionLoaded
  split_ifs
  · exact hC
  · exact hC

theorem paint_bounded (w : World) (C : Chunk) (Tval : ℚ) (lx ly : Int)
    (zs : Nat) (al : Bool) (hC : ChunkBounded C) (h0 : 0 ≤ Tval)
    (h6 : Tval ≤ 6000) : ChunkBounded (paint w C Tval lx ly zs al) := by
  unfold paint
  split_ifs with hg hal
  · exact hC
  · refine markSectionLoaded_bounds _ _ _ ?_
    refine foldl_invariant ChunkBounded _ (List.range 16) C hC ?_
    intro Ca zz _ hCa
    exact set_voxel_bounds w Ca Tval lx.toNat ly.toNat zz hCa h0 h6
  · refine markSectionLoaded_bounds _ _ _ ?_
    exact set_voxel_bounds w C Tval lx.toNat ly.toNat zs hC h0 h6

/-- C5: the [0, 6000] K range is an invariant: the kernel clamps every
non-void write and copies void cells from the bounded front buffer, and a
whole step, a fill with T in range, and a paint of 0, 300 or 6000 K each
preserve boundedness of every temperature buffer. -/
theorem C5_temperature_bounds (w : World) (dt : ℚ) (tm : Int × Int → Nat → ℚ)
    (C : Chunk) (mat_ix : Nat) (T : ℚ) (sy : Int) (mats : MaterialLUT)
    (wp : World) (Cp : Chunk) (Tval : ℚ) (lx ly : Int) (zs : Nat) (al : Bool)
    (hw : WorldBounded w) (hC : ChunkBounded C) (hT0 : 0 ≤ T) (hT6 : T ≤ 6000)
    (hCp : ChunkBounded Cp) (hTv : Tval = 0 ∨ Tval = 300 ∨ Tval = 6000) :
    WorldBounded (step_frame w dt tm) ∧
    ChunkBounded (fill_section_with C mat_ix T sy mats) ∧
    ChunkBounded (paint wp Cp Tval lx ly zs al) ∧
    (∀ (w' : World) (C' : Chunk) (mats' : MaterialLUT) (dt' : ℚ) (x y z : Nat),
      (C'.matIx (idx x y z) = C'.void_ix →
        cellNext w' C' mats' dt' x y z = C'.T_curr (idx x y z)) ∧
      (C'.matIx (idx x y z) ≠ C'.void_ix →
        0 ≤ cellNext w' C' mats' dt' x y z ∧ cellNext w' C' mats' dt' x y z ≤ 6000)) := by
  have hv0 : 0 ≤ Tval := by rcases hTv with h | h | h <;> rw [h] <;> norm_num
  have hv6 : Tval ≤ 6000 := by rcases hTv with h | h | h <;> rw [h] <;> norm_num
  refine ⟨step_frame_bounds w dt tm hw, fill_bounded C mat_ix T sy mats hC hT0 hT6,
    paint_bounded wp Cp Tval lx ly zs al hCp hv0 hv6, ?_⟩
  intro w' C' mats' dt' x y z
  exact ⟨cellNext_void w' C' mats' dt' x y z, cellNext_nonvoid_bounds w' C' mats' dt' x y z⟩

/-- C5 witness: the invariant instantiated on a one-chunk zeroed world, a
fresh chunk filled at 300 K, and a paint of 6000 K. -/
theorem C5_witness :
    WorldBounded (step_frame ⟨[((0, 0), freshChunk 0 0)], s1mats⟩ 1 (fun _ _ => 0)) ∧
    ChunkBounded (fill_section_with (freshChunk 0 0) 1 300 8 s1mats) ∧
    ChunkBounded (paint ⟨[], s1mats⟩ (freshChunk 0 0) 6000 8 136 8 false) := by
  have hfresh : ChunkBounded (freshChunk 0 0) := by
    intro j
    refine ⟨le_refl 0, ?_, le_refl 0, ?_⟩ <;>
      · show (0 : ℚ) ≤ 6000
        norm_num
  have h := C5_temperature_bounds ⟨[((0, 0), freshChunk 0 0)], s1mats⟩ 1 (fun _ _ => 0)
    (freshChunk 0 0) 1 300 8 s1mats ⟨[], s1mats⟩ (freshChunk 0 0) 6000 8 136 8 false
    (by
      intro kc hkc
      rcases List.mem_singleton.mp hkc with rfl
      exact hfresh)
    hfresh (by norm_num) (by norm_num) hfresh (by norm_num)
  exact ⟨h.1, h.2.1, h.2.2.1⟩

/-! ### Stepping a single-chunk world -/

theorem step_single (w : World) (k : Int × Int) (C : Chunk)
    (h : w.chunks = [(k, C)]) (dt : ℚ) (tm : Int × Int → Nat → ℚ) :
    (step_frame w dt tm).chunks = [(k, swapChunk (computeChunk w C dt (tm k)))] := by
  have hfind : w.findChunk k.1 k.2 = some C := by
    unfold World.findChunk
    rw [h]
    simp [List.find?]
  have hkeys : w.chunks.map Prod.fst = [k] := by
    rw [h]
    rfl
  show (swap_all_backbuffers ((w.chunks.map Prod.fst).foldl (frameStep dt tm) w)).chunks = _
  rw [hkeys]
  have hstep : frameStep dt tm w k = w.setChunk k (computeChunk w C dt (tm k)) := by
    unfold frameStep
    rw [hfind]
  show (swap_all_backbuffers (frameStep dt tm w k)).chunks = _
  rw [hstep]
  show ((w.setChunk k (computeChunk w C dt (tm k))).chunks.map
    (fun kc => (kc.1, swapChunk kc.2))) = _
  unfold World.setChunk World.modifyChunk
  rw [h]
  simp

/-! ### C3: void cells across a step -/

/-- The S4 setup as written: an all-void chunk whose front buffer holds the
ramp T = y while the back buffer still holds the zeros of construction. -/
def rampHalfChunk : Chunk :=
  { freshChunk 0 0 with T_curr := fun j => ((j / 16 % 384 : Nat) : ℚ) }

/-- One-chunk world around rampHalfChunk, with the VOID material interned. -/
def rampHalfWorld : World := ⟨[((0, 0), rampHalfChunk)], ⟨[Material.zero]⟩⟩

/-- The repaired S4 setup: the ramp written to both buffers. -/
def rampChunk : Chunk :=
  { freshChunk 0 0 with
    T_curr := fun j => ((j / 16 % 384 : Nat) : ℚ),
    T_next := fun j => ((j / 16 % 384 : Nat) : ℚ) }

/-- One-chunk world around rampChunk. -/
def rampWorld : World := ⟨[((0, 0), rampChunk)], ⟨[Material.zero]⟩⟩

/-- C3 counterexample: in the all-void ramp chunk no section is loaded, so a
step simulates nothing and swap_all still exchanges the buffers: at the
void cell (0,1,0) the claimed equality T_next == T_curr fails after one
step (T_curr becomes the old zero back buffer, T_next the ramp value 1). -/
theorem C3_counterexample :
    rampHalfChunk.matIx (idx 0 1 0) = rampHalfChunk.void_ix ∧
    (((step_frame rampHalfWorld 1 (fun _ _ => 0)).findChunk 0 0).getD
        (freshChunk 0 0)).T_next (idx 0 1 0) ≠
      (((step_frame rampHalfWorld 1 (fun _ _ => 0)).findChunk 0 0).getD
        (freshChunk 0 0)).T_curr (idx 0 1 0) := by
  constructor
  · rfl
  · decide

/-- C3 (amended): after every step, every cell with mat_ix = void_ix that
lies in a loaded section satisfies T_next == T_curr; void cells of unloaded
sections are only buffer-swapped, so the all-void ramp scenario is
unchanged by a step exactly when both buffers hold the ramp — as proved
here for rampWorld. -/
theorem C3_void_inert (w : World) (dt : ℚ) (tm : Int × Int → Nat → ℚ)
    (hnod : (w.chunks.map Prod.fst).Nodup) :
    (∀ kc, kc ∈ (step_frame w dt tm).chunks → ∀ x y z : Nat,
      x < 16 → y < 384 → z < 16 →
      kc.2.sectionLoaded (y / 16) = true →
      kc.2.matIx (idx x y z) = kc.2.void_ix →
      kc.2.T_next (idx x y z) = kc.2.T_curr (idx x y z)) ∧
    step_frame rampWorld 1 (fun _ _ => 0) = rampWorld := by
  constructor
  · intro kc hkc x y z hx hy hz hload hvoid
    simp only [step_frame, swap_all_backbuffers, List.mem_map] at hkc
    obtain ⟨kc0, hkc0, heq⟩ := hkc
    obtain ⟨C₀, wb, hCmem, hCeq⟩ :=
      compute_frame_processed w dt tm hnod kc0 hkc0
    subst heq
    have hsr := computeChunk_sameReads wb C₀ dt (tm kc0.1)
    rw [← hCeq] at hsr
    show kc0.2.T_curr (idx x y z) = kc0.2.T_next (idx x y z)
    have hload' : C₀.sectionLoaded (y / 16) = true := by
      rw [← hsr.2.2.2.2.2.2]
      exact hload
    have hvoid' : C₀.matIx (idx x y z) = C₀.void_ix := by
      rw [← hsr.1, ← hsr.2.2.2.1]
      exact hvoid
    have hnext : kc0.2.T_next (idx x y z) = cellNext wb C₀ wb.materials dt x y z := by
      rw [hCeq, computeChunk_T_next wb C₀ dt (tm kc0.1) x y z hx hy hz, if_pos hload']
    rw [hnext, cellNext_void wb C₀ wb.materials dt x y z hvoid', ← hsr.2.1]
  · rfl

/-- C3 witness: a one-chunk world whose section 0 holds a single solid cell
(so the section is loaded) and void everywhere else. -/
def mixedChunk : Chunk :=
  { freshChunk 0 0 with
    matIx := updFn (fun _ => 0) (idx 0 0 0) 1,
    mass_kg := updFn (fun _ => 0) (idx 0 0 0) 1000,
    sectionLoaded := updFn (fun _ => false) 0 true }

/-- One-chunk world around mixedChunk. -/
def mixedWorld : World := ⟨[((0, 0), mixedChunk)], s1mats⟩

/-- C3 witness: the void cell (1,0,0) of the loaded section 0 of mixedWorld
has equal buffers after one step. -/
theorem C3_witness :
    (((step_frame mixedWorld 1 (fun _ _ => 0)).findChunk 0 0).getD
        (freshChunk 0 0)).T_next (idx 1 0 0) =
      (((step_frame mixedWorld 1 (fun _ _ => 0)).findChunk 0 0).getD
        (freshChunk 0 0)).T_curr (idx 1 0 0) := by
  have hnod : (mixedWorld.chunks.map Prod.fst).Nodup := by
    simp [mixedWorld]
  have hlist := step_single mixedWorld (0, 0) mixedChunk rfl 1 (fun _ _ => 0)
  have hget : ((step_frame mixedWorld 1 (fun _ _ => 0)).findChunk 0 0).getD
      (freshChunk 0 0) =
      swapChunk (computeChunk mixedWorld mixedChunk 1 ((fun _ _ => (0 : ℚ)) ((0 : Int), (0 : Int)))) := by
    unfold World.findChunk
    rw [hlist]
    simp [List.find?]
  have hmem : ((0, 0),
      swapChunk (computeChunk mixedWorld mixedChunk 1 ((fun _ _ => (0 : ℚ)) ((0 : Int), (0 : Int))))) ∈
      (step_frame mixedWorld 1 (fun _ _ => 0)).chunks := by
    rw [hlist]
    exact List.mem_singleton.mpr rfl
  have hsr := computeChunk_sameReads mixedWorld mixedChunk 1
    ((fun _ _ => (0 : ℚ)) ((0 : Int), (0 : Int)))
  have hflag : (swapChunk (computeChunk mixedWorld mixedChunk 1
      ((fun _ _ => (0 : ℚ)) ((0 : Int), (0 : Int))))).sectionLoaded (0 / 16) = true := by
    show (computeChunk mixedWorld mixedChunk 1
      ((fun _ _ => (0 : ℚ)) ((0 : Int), (0 : Int)))).sectionLoaded (0 / 16) = true
    rw [hsr.2.2.2.2.2.2]
    rfl
  have hvoid : (swapChunk (computeChunk mixedWorld mixedChunk 1
      ((fun _ _ => (0 : ℚ)) ((0 : Int), (0 : Int))))).matIx (idx 1 0 0) =
      (swapChunk (computeChunk mixedWorld mixedChunk 1
      ((fun _ _ => (0 : ℚ)) ((0 : Int), (0 : Int))))).void_ix := by
    show (computeChunk mixedWorld mixedChunk 1
      ((fun _ _ => (0 : ℚ)) ((0 : Int), (0 : Int)))).matIx (idx 1 0 0) =
      (computeChunk mixedWorld mixedChunk 1
      ((fun _ _ => (0 : ℚ)) ((0 : Int), (0 : Int)))).void_ix
    rw [hsr.1, hsr.2.2.2.1]
    rfl
  have h := (C3_void_inert mixedWorld 1 (fun _ _ => 0) hnod).1 _ hmem 1 0 0
    (by norm_num) (by norm_num) (by norm_num) hflag hvoid
  rw [hget]
  exact h

/-! ### C4: the visual stress controller -/

/-- Flag computed by recomputeSectionLoaded: any non-void cell in the
section. -/
theorem recompute_flag (C : Chunk) (sy : Nat) (hsy : sy < 24) :
    ((recomputeSectionLoaded C).sectionLoaded sy = true ↔
      ∃ j ∈ sectionCells sy, C.matIx j ≠ C.void_ix) := by
  show ((if sy < 24 then (sectionCells sy).any (fun j => decide (C.matIx j ≠ C.void_ix))
      else C.sectionLoaded sy) = true ↔ _)
  rw [if_pos hsy, List.any_eq_true]
  constructor
  · rintro ⟨j, hj, hp⟩
    exact ⟨j, hj, of_decide_eq_true hp⟩
  · rintro ⟨j, hj, hp⟩
    exact ⟨j, hj, decide_eq_true hp⟩

/-- The section index drawn by pick_empty_section is in range and currently
not loaded. -/
theorem pick_empty_section_spec (C : Chunk) (pick : Nat) (sy : Nat)
    (h : pick_empty_section C pick = some sy) :
    sy < 24 ∧ C.sectionLoaded sy = false := by
  unfold pick_empty_section at h
  by_cases he : ((List.range 24).filter (fun s => !C.sectionLoaded s)).isEmpty = true
  · rw [if_pos he] at h
    cases h
  · rw [if_neg he] at h
    have hne : ((List.range 24).filter (fun s => !C.sectionLoaded s)) ≠ [] := by
      intro hnil
      rw [hnil] at he
      exact he rfl
    have hlen : 0 < ((List.range 24).filter (fun s => !C.sectionLoaded s)).length :=
      List.length_pos.mpr hne
    have hidx : pick % ((List.range 24).filter (fun s => !C.sectionLoaded s)).length <
        ((List.range 24).filter (fun s => !C.sectionLoaded s)).length :=
      Nat.mod_lt _ hlen
    have hsy : sy ∈ (List.range 24).filter (fun s => !C.sectionLoaded s) := by
      have := Option.some_injective _ h
      rw [← this, List.getD_eq_get _ _ hidx]
      exact List.get_mem _ _ _
    have hmem := List.mem_filter.mp hsy
    refine ⟨List.mem_range.mp hmem.1, ?_⟩
    have := hmem.2
    rwa [Bool.not_eq_true'] at this

theorem find?_map_setKey (k : Int × Int) (C' : Chunk) :
    ∀ l : List ((Int × Int) × Chunk),
      (l.find? (fun kc => decide (kc.1 = k))).isSome = true →
      ((l.map (fun kc => if kc.1 = k then (kc.1, C') else kc)).find?
        (fun kc => decide (kc.1 = k))).map Prod.snd = some C' := by
  intro l
  induction l with
  | nil => intro h; cases h
  | cons a l' ih =>
      intro h
      by_cases hk : a.1 = k
      · rw [List.map_cons, if_pos hk]
        simp [List.find?, hk]
      · rw [List.map_cons, if_neg hk]
        rw [List.find?_cons] at h ⊢
        have hd : decide (a.1 = k) = false := decide_eq_false hk
        simp only [hd, cond_false] at h ⊢
        exact ih h

/-- Replacing the chunk stored under a present key makes lookup return the
replacement. -/
theorem findChunk_setChunk_self (w : World) (k : Int × Int) (C C' : Chunk)
    (h : w.findChunk k.1 k.2 = some C) :
    (w.setChunk k C').findChunk k.1 k.2 = some C' := by
  unfold World.findChunk at h ⊢
  unfold World.setChunk World.modifyChunk
  have hsome : (w.chunks.find? (fun kc => decide (kc.1 = (k.1, k.2)))).isSome = true := by
    obtain ⟨a, ha, -⟩ := Option.map_eq_some'.mp h
    rw [ha]
    rfl
  exact find?_map_setKey k C' w.chunks hsome

/-- A tick whose measured frame time exceeds the budget only sleeps: the
controller state (including the server's paused flag) is untouched. -/
theorem controllerTick_skip (s : GrowthState) (dt wms : ℚ) (rm : Material)
    (rT : ℚ) (pick : Nat) (hw : dt * 1000 < wms) :
    controllerTick s dt wms rm rT pick = s := by
  unfold controllerTick
  rw [if_pos hw]

/-- An in-budget tick that draws an empty section sy interns the material and
fills that section of the current chunk. -/
theorem controllerTick_fill (s : GrowthState) (dt wms : ℚ) (rm : Material)
    (rT : ℚ) (pick : Nat) (C : Chunk) (sy : Nat)
    (hw : ¬dt * 1000 < wms)
    (hfC : s.world.findChunk s.cur.1 s.cur.2 = some C)
    (hpick : pick_empty_section C pick = some sy) :
    controllerTick s dt wms rm rT pick =
      { s with world :=
          (World.setChunk ⟨s.world.chunks, (s.world.materials.add rm).1⟩ s.cur
            (recomputeSectionLoaded
              (fill_section_with C (s.world.materials.add rm).2 rT (sy : Int)
                (s.world.materials.add rm).1))) } := by
  unfold controllerTick
  rw [if_neg hw]
  simp only [hfC, hpick]

/-- Initial state for the concrete controller runs: one chunk at (0,0) whose
section 8 is solid at 300 K (flags consistent with the cells), materials
VOID and SOLID, controller at (0,0), sim server not paused. -/
def c4chunk : Chunk :=
  { freshChunk 0 0 with
    matIx := fun j => if 2048 ≤ j % 6144 ∧ j % 6144 < 2304 then 1 else 0,
    T_curr := fun j => if 2048 ≤ j % 6144 ∧ j % 6144 < 2304 then 300 else 0,
    T_next := fun j => if 2048 ≤ j % 6144 ∧ j % 6144 < 2304 then 300 else 0,
    mass_kg := fun j => if 2048 ≤ j % 6144 ∧ j % 6144 < 2304 then 1000 else 0,
    sectionLoaded := fun sy => decide (sy = 8) }

/-- One-chunk world around c4chunk. -/
def c4world : World := ⟨[((0, 0), c4chunk)], s1mats⟩

/-- Controller state over c4world. -/
def c4state : GrowthState := ⟨c4world, (0, 0), SpiralCursor.start, false⟩

/-- C4 counterexample: a tick whose measured world_ms = 2000 exceeds the
budget dt*1000 = 1000 leaves the state unchanged — in particular it does
not pause the sim server — and the very next tick, with a reading of 0,
fills section 0 of chunk (0,0): growth was not stopped permanently by the
trip, contradicting the claim. -/
theorem C4_counterexample :
    (1 : ℚ) * 1000 < 2000 ∧
    controllerTick c4state 1 2000 matSOLID 300 0 = c4state ∧
    (controllerTick c4state 1 2000 matSOLID 300 0).simPaused = false ∧
    c4chunk.sectionLoaded 0 = false ∧
    (((controllerTick (controllerTick c4state 1 2000 matSOLID 300 0) 1 0 matSOLID 300 0).world.findChunk
        0 0).getD (freshChunk 0 0)).sectionLoaded 0 = true := by
  have h1 : controllerTick c4state 1 2000 matSOLID 300 0 = c4state :=
    controllerTick_skip c4state 1 2000 matSOLID 300 0 (by norm_num)
  refine ⟨by norm_num, h1, by rw [h1]; rfl, by decide, ?_⟩
  rw [h1]
  have ht2 := controllerTick_fill c4state 1 0 matSOLID 300 0 c4chunk 0
    (by norm_num) rfl rfl
  rw [ht2]
  have hf0 : (⟨c4world.chunks, (s1mats.add matSOLID).1⟩ : World).findChunk 0 0 =
      some c4chunk := rfl
  have hset : ((⟨c4world.chunks, (s1mats.add matSOLID).1⟩ : World).setChunk
      ((0 : Int), (0 : Int))
      (recomputeSectionLoaded
        (fill_section_with c4chunk (s1mats.add matSOLID).2 300 ((0 : Nat) : Int)
          (s1mats.add matSOLID).1))).findChunk 0 0 =
      some (recomputeSectionLoaded
        (fill_section_with c4chunk (s1mats.add matSOLID).2 300 ((0 : Nat) : Int)
          (s1mats.add matSOLID).1)) :=
    findChunk_setChunk_self _ ((0 : Int), (0 : Int)) c4chunk _ hf0
  rw [show (({ c4state with world :=
      (World.setChunk ⟨c4state.world.chunks, (c4state.world.materials.add matSOLID).1⟩
        c4state.cur
        (recomputeSectionLoaded
          (fill_section_with c4chunk (c4state.world.materials.add matSOLID).2 300
            (((0 : Nat)) : Int) (c4state.world.materials.add matSOLID).1))) } :
      GrowthState).world.findChunk 0 0).getD (freshChunk 0 0) =
      recomputeSectionLoaded
        (fill_section_with c4chunk (s1mats.add matSOLID).2 300 ((0 : Nat) : Int)
          (s1mats.add matSOLID).1)
    from by rw [show (({ c4state with world :=
      (World.setChunk ⟨c4state.world.chunks, (c4state.world.materials.add matSOLID).1⟩
        c4state.cur
        (recomputeSectionLoaded
          (fill_section_with c4chunk (c4state.world.materials.add matSOLID).2 300
            (((0 : Nat)) : Int) (c4state.world.materials.add matSOLID).1))) } :
      GrowthState).world.findChunk 0 0) = some (recomputeSectionLoaded
        (fill_section_with c4chunk (s1mats.add matSOLID).2 300 ((0 : Nat) : Int)
          (s1mats.add matSOLID).1)) from hset]; rfl]
  rw [recompute_flag _ 0 (by norm_num)]
  refine ⟨idx 0 0 0, ?_, ?_⟩
  · exact (idx_mem_sectionCells 0 0 0 0 (by norm_num) (by norm_num) (by norm_num)
      (by norm_num)).mpr ⟨by omega, by omega⟩
  · rw [(fill_cells_in c4chunk (s1mats.add matSOLID).2 300 ((0 : Nat) : Int)
      (s1mats.add matSOLID).1 (by omega) (by omega) 0 0 0 (by norm_num) (by norm_num)
      (by norm_num) ⟨by omega, by omega⟩).1,
      fill_void_ix c4chunk (s1mats.add matSOLID).2 300 ((0 : Nat) : Int)
        (s1mats.add matSOLID).1 (by omega) (by omega)]
    decide

/-- C4 (amended): the controller has no trip latch and never pauses the sim
server: a tick whose measured world_ms exceeds dt*1000 changes nothing
(growth merely skips that tick), and any later tick whose reading is within
budget performs a growth step again — if an unloaded section is drawn it
becomes loaded. -/
theorem C4_growth_not_latched (s : GrowthState) (dt wms : ℚ) (rm : Material)
    (rT : ℚ) (pick : Nat) :
    (dt * 1000 < wms → controllerTick s dt wms rm rT pick = s) ∧
    (¬dt * 1000 < wms → ∀ (C : Chunk) (sy : Nat),
      s.world.findChunk s.cur.1 s.cur.2 = some C →
      pick_empty_section C pick = some sy →
      C.void_ix = 0 →
      1 ≤ s.world.materials.table.length →
      s.world.materials.table.length < 65536 →
      C.sectionLoaded sy = false ∧
      (((controllerTick s dt wms rm rT pick).world.findChunk s.cur.1 s.cur.2).getD
        (freshChunk 0 0)).sectionLoaded sy = true) := by
  constructor
  · intro hw
    exact controllerTick_skip s dt wms rm rT pick hw
  · intro hw C sy hfC hpick hv h1 h65536
    obtain ⟨hsy24, hflag⟩ := pick_empty_section_spec C pick sy hpick
    refine ⟨hflag, ?_⟩
    have htick := controllerTick_fill s dt wms rm rT pick C sy hw hfC hpick
    rw [htick]
    have hfC' : (⟨s.world.chunks, (s.world.materials.add rm).1⟩ : World).findChunk
        s.cur.1 s.cur.2 = some C := hfC
    have hset := findChunk_setChunk_self ⟨s.world.chunks, (s.world.materials.add rm).1⟩
      s.cur C
      (recomputeSectionLoaded
        (fill_section_with C (s.world.materials.add rm).2 rT (sy : Int)
          (s.world.materials.add rm).1)) hfC'
    rw [hset]
    show (recomputeSectionLoaded
      (fill_section_with C (s.world.materials.add rm).2 rT (sy : Int)
        (s.world.materials.add rm).1)).sectionLoaded sy = true
    rw [recompute_flag _ sy hsy24]
    have hMAT : (s.world.materials.add rm).2 = s.world.materials.table.length := by
      rw [MaterialLUT.add_snd]
      omega
    refine ⟨idx 0 (16 * sy) 0, ?_, ?_⟩
    · exact (idx_mem_sectionCells sy 0 (16 * sy) 0 hsy24 (by norm_num)
        (by omega) (by norm_num)).mpr ⟨le_refl _, by omega⟩
    · rw [(fill_cells_in C (s.world.materials.add rm).2 rT (sy : Int)
        (s.world.materials.add rm).1 (by omega) (by omega) 0 (16 * sy) 0
        (by norm_num) (by omega) (by norm_num) ⟨by omega, by omega⟩).1,
        fill_void_ix C (s.world.materials.add rm).2 rT (sy : Int)
          (s.world.materials.add rm).1 (by omega) (by omega), hv, hMAT]
      omega

/-- C4 witness: the amended behavior at the concrete state c4state — the
tripped tick is a no-op (no pause), and a later in-budget tick fills the
drawn empty section 0. -/
theorem C4_witness :
    controllerTick c4state 1 2000 matSOLID 300 0 = c4state ∧
    c4chunk.sectionLoaded 0 = false ∧
    (((controllerTick c4state 1 0 matSOLID 300 0).world.findChunk 0 0).getD
      (freshChunk 0 0)).sectionLoaded 0 = true := by
  have h := (C4_growth_not_latched c4state 1 0 matSOLID 300 0).2 (by norm_num)
    c4chunk 0 rfl rfl rfl (by decide) (by decide)
  exact ⟨(C4_growth_not_latched c4state 1 2000 matSOLID 300 0).1 (by norm_num),
    h.1, h.2⟩

/-! ### C2: the neighbor sampling contract -/

/-- Bridge between the Int-valued wrapped coordinate of the source and its
Nat form. -/
theorem wrap_toNat (a : Int) :
    (if a < 0 then (15 : Int) else if 16 ≤ a then 0 else a).toNat =
      (if a < 0 then (15 : Nat) else if 16 ≤ a then 0 else a.toNat) := by
  split_ifs <;> rfl

/-- C2: sample_neighbor_T reports a non-existent neighbor exactly when the
resulting y leaves [0, 384) or the neighbor's chunk is absent from the
world; otherwise it returns the neighbor cell's T_curr and mat_ix, looked
up in the adjacent chunk with the crossing coordinate wrapped; and the
kernel's per-face flux term vanishes on every non-existent sample
(no-flux, not 0 K). -/
theorem C2_neighbor_lookup (w : World) (C : Chunk) (x y z dx dy dz : Int)
    (hC : w.findChunk C.cx C.cz = some C) :
    ((sample_neighbor_T w C x y z dx dy dz).ex = false ↔
      (y + dy < 0 ∨ 384 ≤ y + dy ∨
        w.findChunk
          (if x + dx < 0 then C.cx - 1 else if 16 ≤ x + dx then C.cx + 1 else C.cx)
          (if z + dz < 0 then C.cz - 1 else if 16 ≤ z + dz then C.cz + 1 else C.cz) =
          none)) ∧
    (∀ CC : Chunk, ¬(y + dy < 0 ∨ 384 ≤ y + dy) →
      w.findChunk
        (if x + dx < 0 then C.cx - 1 else if 16 ≤ x + dx then C.cx + 1 else C.cx)
        (if z + dz < 0 then C.cz - 1 else if 16 ≤ z + dz then C.cz + 1 else C.cz) =
        some CC →
      sample_neighbor_T w C x y z dx dy dz =
        ⟨CC.T_curr (idx (if x + dx < 0 then 15 else if 16 ≤ x + dx then 0 else (x + dx).toNat)
            (y + dy).toNat
            (if z + dz < 0 then 15 else if 16 ≤ z + dz then 0 else (z + dz).toNat)),
          CC.matIx (idx (if x + dx < 0 then 15 else if 16 ≤ x + dx then 0 else (x + dx).toNat)
            (y + dy).toNat
            (if z + dz < 0 then 15 else if 16 ≤ z + dz then 0 else (z + dz).toNat)),
          true⟩) ∧
    (∀ (mats : MaterialLUT) (m : Material) (Tc : ℚ) (nb : NeighborSample),
      nb.ex = false → fluxTerm mats m Tc nb = 0) := by
  have hflux : ∀ (mats : MaterialLUT) (m : Material) (Tc : ℚ) (nb : NeighborSample),
      nb.ex = false → fluxTerm mats m Tc nb = 0 := by
    intro mats m Tc nb h
    unfold fluxTerm
    rw [h]
    simp
  by_cases hy : y + dy < 0 ∨ 384 ≤ y + dy
  · have hs : sample_neighbor_T w C x y z dx dy dz = ⟨0, C.void_ix, false⟩ := by
      unfold sample_neighbor_T
      rw [if_pos hy]
    refine ⟨?_, ?_, hflux⟩
    · rw [hs]
      exact ⟨fun _ => by
        rcases hy with h | h
        · exact Or.inl h
        · exact Or.inr (Or.inl h), fun _ => rfl⟩
    · intro CC hny _
      exact absurd hy hny
  · by_cases hcr :
      (if x + dx < 0 then C.cx - 1 else if 16 ≤ x + dx then C.cx + 1 else C.cx) = C.cx ∧
      (if z + dz < 0 then C.cz - 1 else if 16 ≤ z + dz then C.cz + 1 else C.cz) = C.cz
    · have hnc : ¬(x + dx < 0) ∧ ¬(16 ≤ x + dx) ∧ ¬(z + dz < 0) ∧ ¬(16 ≤ z + dz) := by
        obtain ⟨h1, h2⟩ := hcr
        constructor
        · intro hl
          rw [if_pos hl] at h1
          omega
        constructor
        · intro hl
          have hnl : ¬(x + dx < 0) := by omega
          rw [if_neg hnl, if_pos hl] at h1
          omega
        constructor
        · intro hl
          rw [if_pos hl] at h2
          omega
        · intro hl
          have hnl : ¬(z + dz < 0) := by omega
          rw [if_neg hnl, if_pos hl] at h2
          omega
      have hs : sample_neighbor_T w C x y z dx dy dz =
          ⟨C.T_curr (idx (if x + dx < 0 then (15 : Int) else if 16 ≤ x + dx then 0
                else x + dx).toNat
              (y + dy).toNat
              (if z + dz < 0 then (15 : Int) else if 16 ≤ z + dz then 0 else z + dz).toNat),
            C.matIx (idx (if x + dx < 0 then (15 : Int) else if 16 ≤ x + dx then 0
                else x + dx).toNat
              (y + dy).toNat
              (if z + dz < 0 then (15 : Int) else if 16 ≤ z + dz then 0 else z + dz).toNat),
            true⟩ := by
        unfold sample_neighbor_T
        rw [if_neg hy, if_pos hcr]
      refine ⟨?_, ?_, hflux⟩
      · rw [hs]
        constructor
        · intro hfalse
          cases hfalse
        · intro hr
          rcases hr with h | h | h
          · exact absurd (Or.inl h) hy
          · exact absurd (Or.inr h) hy
          · rw [hcr.1, hcr.2, hC] at h
            cases h
      · intro CC hny hfind
        rw [hcr.1, hcr.2, hC] at hfind
        have hCC : C = CC := Option.some_injective _ hfind
        rw [hs, wrap_toNat (x + dx), wrap_toNat (z + dz), hCC]
    · rcases hfc : w.findChunk
          (if x + dx < 0 then C.cx - 1 else if 16 ≤ x + dx then C.cx + 1 else C.cx)
          (if z + dz < 0 then C.cz - 1 else if 16 ≤ z + dz then C.cz + 1 else C.cz)
        with _ | CC
      · have hs : sample_neighbor_T w C x y z dx dy dz = ⟨0, C.void_ix, false⟩ := by
          unfold sample_neighbor_T
          rw [if_neg hy, if_neg hcr, hfc]
        refine ⟨?_, ?_, hflux⟩
        · rw [hs]
          exact ⟨fun _ => Or.inr (Or.inr rfl), fun _ => rfl⟩
        · intro CC hny hfind
          cases hfind
      · have hs : sample_neighbor_T w C x y z dx dy dz =
            ⟨CC.T_curr (idx (if x + dx < 0 then (15 : Int) else if 16 ≤ x + dx then 0
                  else x + dx).toNat
                (y + dy).toNat
                (if z + dz < 0 then (15 : Int) else if 16 ≤ z + dz then 0 else z + dz).toNat),
              CC.matIx (idx (if x + dx < 0 then (15 : Int) else if 16 ≤ x + dx then 0
                  else x + dx).toNat
                (y + dy).toNat
                (if z + dz < 0 then (15 : Int) else if 16 ≤ z + dz then 0 else z + dz).toNat),
              true⟩ := by
          unfold sample_neighbor_T
          rw [if_neg hy, if_neg hcr, hfc]
        refine ⟨?_, ?_, hflux⟩
        · rw [hs]
          constructor
          · intro hfalse
            cases hfalse
          · intro hr
            rcases hr with h | h | h
            · exact absurd (Or.inl h) hy
            · exact absurd (Or.inr h) hy
            · cases h
        · intro CC' hny hfind
          have hCC : CC = CC' := Option.some_injective _ hfind
          rw [hs, wrap_toNat (x + dx), wrap_toNat (z + dz), hCC]

/-- C2 witness: in a world holding only chunk (0,0), the -x neighbor of cell
(0,0,0) crosses into the absent chunk (-1,0), so the sample does not
exist. -/
theorem C2_witness :
    (⟨[((0, 0), freshChunk 0 0)], s1mats⟩ : World).findChunk 0 0 =
      some (freshChunk 0 0) ∧
    (sample_neighbor_T ⟨[((0, 0), freshChunk 0 0)], s1mats⟩ (freshChunk 0 0)
      0 0 0 (-1) 0 0).ex = false := by
  have hC : (⟨[((0, 0), freshChunk 0 0)], s1mats⟩ : World).findChunk 0 0 =
      some (freshChunk 0 0) := rfl
  have h := (C2_neighbor_lookup ⟨[((0, 0), freshChunk 0 0)], s1mats⟩
    (freshChunk 0 0) 0 0 0 (-1) 0 0 hC).1
  exact ⟨hC, h.mpr (Or.inr (Or.inr rfl))⟩

/-! ### C8: the S1 hot-cell scenario

init_one_visible_section (main.cpp): materials VOID/SOLID, one chunk at
(0,0), section 8 filled with SOLID at 300 K, the section's center cell set
to 6000 K in both buffers, then recomputeSectionLoaded. -/

/-- Center cell of section 8: x = 8, y = 8*16 + 8 = 136, z = 8. -/
def iHot : Nat := idx 8 136 8

/-- The S1 chunk before the final recomputeSectionLoaded: section 8 filled
with SOLID at 300 K, then the hot cell written into both buffers. -/
def s1pre : Chunk :=
  { fill_section_with (freshChunk 0 0) 1 300 8 s1mats with
    T_curr := updFn (fill_section_with (freshChunk 0 0) 1 300 8 s1mats).T_curr iHot 6000,
    T_next := updFn (fill_section_with (freshChunk 0 0) 1 300 8 s1mats).T_next iHot 6000 }

/-- The S1 chunk exactly as init_one_visible_section builds it. -/
def s1chunk : Chunk := recomputeSectionLoaded s1pre

/-- The S1 world: the single chunk plus the VOID/SOLID table. -/
def s1world : World := ⟨[((0, 0), s1chunk)], s1mats⟩

theorem s1_matIx (x y z : Nat) (hx : x < 16) (hy : y < 384) (hz : z < 16) :
    s1chunk.matIx (idx x y z) = (if 128 ≤ y ∧ y < 144 then 1 else 0) := by
  show (fill_section_with (freshChunk 0 0) 1 300 8 s1mats).matIx (idx x y z) = _
  by_cases hs : 128 ≤ y ∧ y < 144
  · rw [if_pos hs]
    exact (fill_cells_in (freshChunk 0 0) 1 300 8 s1mats (by norm_num) (by norm_num)
      x y z hx hy hz (by omega)).1
  · rw [if_neg hs]
    exact (fill_cells_out (freshChunk 0 0) 1 300 8 s1mats (by norm_num) (by norm_num)
      x y z hx hy hz (by omega)).1

theorem s1_mass (x y z : Nat) (hx : x < 16) (hy : y < 384) (hz : z < 16) :
    s1chunk.mass_kg (idx x y z) = (if 128 ≤ y ∧ y < 144 then 1000 else 0) := by
  show (fill_section_with (freshChunk 0 0) 1 300 8 s1mats).mass_kg (idx x y z) = _
  by_cases hs : 128 ≤ y ∧ y < 144
  · rw [if_pos hs,
      (fill_cells_in (freshChunk 0 0) 1 300 8 s1mats (by norm_num) (by norm_num)
        x y z hx hy hz (by omega)).2.2.2]
    rfl
  · rw [if_neg hs]
    exact (fill_cells_out (freshChunk 0 0) 1 300 8 s1mats (by norm_num) (by norm_num)
      x y z hx hy hz (by omega)).2.2.2

theorem idx_inj (x y z x' y' z' : Nat) (hx : x < 16) (hy : y < 384) (hz : z < 16)
    (hx' : x' < 16) (hy' : y' < 384) (hz' : z' < 16)
    (h : idx x y z = idx x' y' z') : x = x' ∧ y = y' ∧ z = z' := by
  simp only [idx] at h
  omega

theorem s1_T_curr (x y z : Nat) (hx : x < 16) (hy : y < 384) (hz : z < 16) :
    s1chunk.T_curr (idx x y z) =
      (if x = 8 ∧ y = 136 ∧ z = 8 then 6000
       else if 128 ≤ y ∧ y < 144 then 300 else 0) := by
  show updFn (fill_section_with (freshChunk 0 0) 1 300 8 s1mats).T_curr iHot 6000
    (idx x y z) = _
  by_cases hc : x = 8 ∧ y = 136 ∧ z = 8
  · obtain ⟨rfl, rfl, rfl⟩ := hc
    rw [if_pos ⟨rfl, rfl, rfl⟩]
    exact updFn_same _ _ _
  · rw [if_neg hc]
    have hne : idx x y z ≠ iHot := by
      intro he
      exact hc (idx_inj x y z 8 136 8 hx hy hz (by norm_num) (by norm_num)
        (by norm_num) he)
    rw [updFn_other _ _ _ _ hne]
    by_cases hs : 128 ≤ y ∧ y < 144
    · rw [if_pos hs]
      exact (fill_cells_in (freshChunk 0 0) 1 300 8 s1mats (by norm_num) (by norm_num)
        x y z hx hy hz (by omega)).2.1
    · rw [if_neg hs]
      exact (fill_cells_out (freshChunk 0 0) 1 300 8 s1mats (by norm_num) (by norm_num)
        x y z hx hy hz (by omega)).2.1

theorem s1_T_next (x y z : Nat) (hx : x < 16) (hy : y < 384) (hz : z < 16) :
    s1chunk.T_next (idx x y z) =
      (if x = 8 ∧ y = 136 ∧ z = 8 then 6000
       else if 128 ≤ y ∧ y < 144 then 300 else 0) := by
  show updFn (fill_section_with (freshChunk 0 0) 1 300 8 s1mats).T_next iHot 6000
    (idx x y z) = _
  by_cases hc : x = 8 ∧ y = 136 ∧ z = 8
  · obtain ⟨rfl, rfl, rfl⟩ := hc
    rw [if_pos ⟨rfl, rfl, rfl⟩]
    exact updFn_same _ _ _
  · rw [if_neg hc]
    have hne : idx x y z ≠ iHot := by
      intro he
      exact hc (idx_inj x y z 8 136 8 hx hy hz (by norm_num) (by norm_num)
        (by norm_num) he)
    rw [updFn_other _ _ _ _ hne]
    by_cases hs : 128 ≤ y ∧ y < 144
    · rw [if_pos hs]
      exact (fill_cells_in (freshChunk 0 0) 1 300 8 s1mats (by norm_num) (by norm_num)
        x y z hx hy hz (by omega)).2.2.1
    · rw [if_neg hs]
      exact (fill_cells_out (freshChunk 0 0) 1 300 8 s1mats (by norm_num) (by norm_num)
        x y z hx hy hz (by omega)).2.2.1

theorem s1_matIx_mem (j : Nat) :
    s1chunk.matIx j = (if j ∈ sectionCells 8 then 1 else 0) := by
  show (fill_section_with (freshChunk 0 0) 1 300 8 s1mats).matIx j = _
  rw [fill_eq (freshChunk 0 0) 1 300 8 s1mats (by norm_num) (by norm_num)]
  show foldWrite (fun _ => 1) (sectionCells (8 : Int).toNat) (freshChunk 0 0).matIx j = _
  by_cases hm : j ∈ sectionCells 8
  · rw [if_pos hm]
    exact foldWrite_mem _ _ _ _ hm
  · rw [if_neg hm]
    exact foldWrite_notMem _ _ _ _ hm

theorem recompute_flag_high (C : Chunk) (sy : Nat) (hsy : ¬ sy < 24) :
    (recomputeSectionLoaded C).sectionLoaded sy = C.sectionLoaded sy := by
  show (if sy < 24 then (sectionCells sy).any (fun j => decide (C.matIx j ≠ C.void_ix))
    else C.sectionLoaded sy) = C.sectionLoaded sy
  exact if_neg hsy

theorem s1_loaded (sy : Nat) : s1chunk.sectionLoaded sy = decide (sy = 8) := by
  by_cases h24 : sy < 24
  · by_cases h8 : sy = 8
    · subst h8
      have hwit : ∃ j ∈ sectionCells 8, s1pre.matIx j ≠ s1pre.void_ix := by
        refine ⟨idx 0 128 0, (idx_mem_sectionCells 8 0 128 0 (by norm_num) (by norm_num)
          (by norm_num) (by norm_num)).mpr ⟨by norm_num, by norm_num⟩, ?_⟩
        show s1chunk.matIx (idx 0 128 0) ≠ s1chunk.void_ix
        rw [s1_matIx 0 128 0 (by norm_num) (by norm_num) (by norm_num),
          if_pos (⟨by norm_num, by norm_num⟩ : (128 : Nat) ≤ 128 ∧ (128 : Nat) < 144)]
        show (1 : Nat) ≠ 0
        norm_num
      have h1 : s1chunk.sectionLoaded 8 = true :=
        (recompute_flag s1pre 8 (by norm_num)).mpr hwit
      rw [h1]
      rfl
    · have hne : ¬ s1chunk.sectionLoaded sy = true := by
        intro htrue
        obtain ⟨j, hjm, hjne⟩ := (recompute_flag s1pre sy h24).mp htrue
        have hj8 : j ∉ sectionCells 8 := by
          have h1 := (mem_sectionCells_iff sy j h24).mp hjm
          intro hm8
          have h2 := (mem_sectionCells_iff 8 j (by norm_num)).mp hm8
          omega
        have hj0 : s1chunk.matIx j = s1chunk.void_ix := by
          rw [s1_matIx_mem j, if_neg hj8]
          rfl
        exact hjne hj0
      cases hb : s1chunk.sectionLoaded sy with
      | false => rw [decide_eq_false h8]
      | true => exact absurd hb hne
  · refine Eq.trans (recompute_flag_high s1pre sy h24) ?_
    show (fill_section_with (freshChunk 0 0) 1 300 8 s1mats).sectionLoaded sy = decide (sy = 8)
    rw [fill_flag_other (freshChunk 0 0) 1 300 8 s1mats (by norm_num) (by norm_num) sy
      (by omega)]
    show false = decide (sy = 8)
    rw [decide_eq_false (by omega)]

theorem s1_find_ne (a b : Int) (h : ¬(a = 0 ∧ b = 0)) :
    s1world.findChunk a b = none := by
  have hne : (((0, 0) : Int × Int), s1chunk).1 ≠ (a, b) := by
    intro he
    exact h ⟨(congrArg Prod.fst he).symm, (congrArg Prod.snd he).symm⟩
  show (List.find? (fun kc => decide (kc.1 = (a, b))) [((0, 0), s1chunk)]).map Prod.snd = none
  rw [List.find?_cons]
  have hd : decide ((((0, 0) : Int × Int), s1chunk).1 = (a, b)) = false := decide_eq_false hne
  simp only [hd, cond_false]
  rfl

theorem s1_sample_in (x y z dx dy dz : Int) (a b c : Nat)
    (ha : x + dx = (a : Int)) (hb : y + dy = (b : Int)) (hc : z + dz = (c : Int))
    (ha16 : a < 16) (hb384 : b < 384) (hc16 : c < 16) :
    sample_neighbor_T s1world s1chunk x y z dx dy dz =
      ⟨s1chunk.T_curr (idx a b c), s1chunk.matIx (idx a b c), true⟩ := by
  unfold sample_neighbor_T
  rw [ha, hb, hc]
  have h1 : ¬ ((a : Int) < 0) := by omega
  have h2 : ¬ ((16 : Int) ≤ (a : Int)) := by omega
  have h3 : ¬ ((c : Int) < 0) := by omega
  have h4 : ¬ ((16 : Int) ≤ (c : Int)) := by omega
  rw [if_neg (by omega : ¬ ((b : Int) < 0 ∨ 384 ≤ (b : Int)))]
  rw [if_neg h1, if_neg h1, if_neg h2, if_neg h2, if_neg h3, if_neg h3, if_neg h4, if_neg h4]
  rw [if_pos ⟨rfl, rfl⟩]
  rfl

theorem s1_sample_away (x y z dx dy dz a b : Int)
    (hy : ¬ (y + dy < 0 ∨ 384 ≤ y + dy))
    (hax : (if x + dx < 0 then (0 : Int) - 1 else if 16 ≤ x + dx then 0 + 1 else 0) = a)
    (haz : (if z + dz < 0 then (0 : Int) - 1 else if 16 ≤ z + dz then 0 + 1 else 0) = b)
    (hne : ¬ (a = 0 ∧ b = 0)) :
    sample_neighbor_T s1world s1chunk x y z dx dy dz = ⟨0, s1chunk.void_ix, false⟩ := by
  unfold sample_neighbor_T
  rw [if_neg hy]
  have hcx : s1chunk.cx = 0 := rfl
  have hcz : s1chunk.cz = 0 := rfl
  rw [hcx, hcz, hax, haz, if_neg hne, s1_find_ne a b hne]

theorem s1_byIx1_k : (s1mats.byIx 1).thermalConductivity = 100 := rfl

theorem s1_byIx0_k : (s1mats.byIx 0).thermalConductivity = 0 := rfl

theorem k_eff_100_100 : k_eff (100 : ℚ) 100 = 100 := by norm_num [k_eff]

theorem k_eff_100_0 : k_eff (100 : ℚ) 0 = 0 := by norm_num [k_eff]

theorem s1_max_Cth : max ((1 : ℚ) / 100000000) (1000 * 500) = 500000 := by
  rw [max_eq_right (by norm_num : (1 : ℚ) / 100000000 ≤ 1000 * 500)]
  norm_num

/-- Inside the S1 section, every face flux at a 300 K cell whose sampled
neighbor is not the hot cell vanishes: the neighbor is either absent (other
chunk or outside Y), void (conductivity 0), or solid at the same 300 K. -/
theorem s1_flux_zero (x y z : Nat) (dx dy dz : Int)
    (hx : x < 16) (hy1 : 128 ≤ y) (hy2 : y < 144) (hz : z < 16)
    (hd : dx = 1 ∧ dy = 0 ∧ dz = 0 ∨ dx = -1 ∧ dy = 0 ∧ dz = 0 ∨
      dx = 0 ∧ dy = 1 ∧ dz = 0 ∨ dx = 0 ∧ dy = -1 ∧ dz = 0 ∨
      dx = 0 ∧ dy = 0 ∧ dz = 1 ∨ dx = 0 ∧ dy = 0 ∧ dz = -1)
    (hnb : ¬((x : Int) + dx = 8 ∧ (y : Int) + dy = 136 ∧ (z : Int) + dz = 8)) :
    fluxTerm s1mats (s1mats.byIx 1) 300
      (sample_neighbor_T s1world s1chunk x y z dx dy dz) = 0 := by
  rcases hd with hc | hc | hc | hc | hc | hc <;> obtain ⟨rfl, rfl, rfl⟩ := hc
  · by_cases h15 : x = 15
    · subst h15
      rw [s1_sample_away ((15 : Nat) : Int) y z 1 0 0 1 0 (by omega)
        (by rw [if_neg (by norm_num), if_pos (by norm_num)]; norm_num)
        (by rw [if_neg (by omega), if_neg (by omega)]) (by norm_num)]
      rfl
    · rw [s1_sample_in x y z 1 0 0 (x + 1) y z (by omega) (by omega) (by omega)
        (by omega) (by omega) hz]
      have hT : s1chunk.T_curr (idx (x + 1) y z) = 300 := by
        rw [s1_T_curr (x + 1) y z (by omega) (by omega) hz, if_neg (by omega),
          if_pos ⟨hy1, hy2⟩]
      have hM : s1chunk.matIx (idx (x + 1) y z) = 1 := by
        rw [s1_matIx (x + 1) y z (by omega) (by omega) hz, if_pos ⟨hy1, hy2⟩]
      rw [hT, hM]
      show k_eff (s1mats.byIx 1).thermalConductivity
        (s1mats.byIx 1).thermalConductivity * ((300 : ℚ) - 300) = 0
      rw [sub_self, mul_zero]
  · by_cases h0 : x = 0
    · subst h0
      rw [s1_sample_away ((0 : Nat) : Int) y z (-1) 0 0 (-1) 0 (by omega)
        (by rw [if_pos (by norm_num)]; norm_num)
        (by rw [if_neg (by omega), if_neg (by omega)]) (by norm_num)]
      rfl
    · rw [s1_sample_in x y z (-1) 0 0 (x - 1) y z (by omega) (by omega) (by omega)
        (by omega) (by omega) hz]
      have hT : s1chunk.T_curr (idx (x - 1) y z) = 300 := by
        rw [s1_T_curr (x - 1) y z (by omega) (by omega) hz, if_neg (by omega),
          if_pos ⟨hy1, hy2⟩]
      have hM : s1chunk.matIx (idx (x - 1) y z) = 1 := by
        rw [s1_matIx (x - 1) y z (by omega) (by omega) hz, if_pos ⟨hy1, hy2⟩]
      rw [hT, hM]
      show k_eff (s1mats.byIx 1).thermalConductivity
        (s1mats.byIx 1).thermalConductivity * ((300 : ℚ) - 300) = 0
      rw [sub_self, mul_zero]
  · rw [s1_sample_in x y z 0 1 0 x (y + 1) z (by omega) (by omega) (by omega)
      hx (by omega) hz]
    by_cases hin : y + 1 < 144
    · have hT : s1chunk.T_curr (idx x (y + 1) z) = 300 := by
        rw [s1_T_curr x (y + 1) z hx (by omega) hz, if_neg (by omega),
          if_pos ⟨by omega, hin⟩]
      have hM : s1chunk.matIx (idx x (y + 1) z) = 1 := by
        rw [s1_matIx x (y + 1) z hx (by omega) hz, if_pos ⟨by omega, hin⟩]
      rw [hT, hM]
      show k_eff (s1mats.byIx 1).thermalConductivity
        (s1mats.byIx 1).thermalConductivity * ((300 : ℚ) - 300) = 0
      rw [sub_self, mul_zero]
    · have hT : s1chunk.T_curr (idx x (y + 1) z) = 0 := by
        rw [s1_T_curr x (y + 1) z hx (by omega) hz, if_neg (by omega),
          if_neg (by omega)]
      have hM : s1chunk.matIx (idx x (y + 1) z) = 0 := by
        rw [s1_matIx x (y + 1) z hx (by omega) hz, if_neg (by omega)]
      rw [hT, hM]
      show k_eff (s1mats.byIx 1).thermalConductivity
        (s1mats.byIx 0).thermalConductivity * ((0 : ℚ) - 300) = 0
      rw [s1_byIx1_k, s1_byIx0_k, k_eff_100_0, zero_mul]
  · rw [s1_sample_in x y z 0 (-1) 0 x (y - 1) z (by omega) (by omega) (by omega)
      hx (by omega) hz]
    by_cases hin : 128 ≤ y - 1
    · have hT : s1chunk.T_curr (idx x (y - 1) z) = 300 := by
        rw [s1_T_curr x (y - 1) z hx (by omega) hz, if_neg (by omega),
          if_pos ⟨hin, by omega⟩]
      have hM : s1chunk.matIx (idx x (y - 1) z) = 1 := by
        rw [s1_matIx x (y - 1) z hx (by omega) hz, if_pos ⟨hin, by omega⟩]
      rw [hT, hM]
      show k_eff (s1mats.byIx 1).thermalConductivity
        (s1mats.byIx 1).thermalConductivity * ((300 : ℚ) - 300) = 0
      rw [sub_self, mul_zero]
    · have hT : s1chunk.T_curr (idx x (y - 1) z) = 0 := by
        rw [s1_T_curr x (y - 1) z hx (by omega) hz, if_neg (by omega),
          if_neg (by omega)]
      have hM : s1chunk.matIx (idx x (y - 1) z) = 0 := by
        rw [s1_matIx x (y - 1) z hx (by omega) hz, if_neg (by omega)]
      rw [hT, hM]
      show k_eff (s1mats.byIx 1).thermalConductivity
        (s1mats.byIx 0).thermalConductivity * ((0 : ℚ) - 300) = 0
      rw [s1_byIx1_k, s1_byIx0_k, k_eff_100_0, zero_mul]
  · by_cases h15 : z = 15
    · subst h15
      rw [s1_sample_away x y ((15 : Nat) : Int) 0 0 1 0 1 (by omega)
        (by rw [if_neg (by omega), if_neg (by omega)])
        (by rw [if_neg (by norm_num), if_pos (by norm_num)]; norm_num) (by norm_num)]
      rfl
    · rw [s1_sample_in x y z 0 0 1 x y (z + 1) (by omega) (by omega) (by omega)
        hx (by omega) (by omega)]
      have hT : s1chunk.T_curr (idx x y (z + 1)) = 300 := by
        rw [s1_T_curr x y (z + 1) hx (by omega) (by omega), if_neg (by omega),
          if_pos ⟨hy1, hy2⟩]
      have hM : s1chunk.matIx (idx x y (z + 1)) = 1 := by
        rw [s1_matIx x y (z + 1) hx (by omega) (by omega), if_pos ⟨hy1, hy2⟩]
      rw [hT, hM]
      show k_eff (s1mats.byIx 1).thermalConductivity
        (s1mats.byIx 1).thermalConductivity * ((300 : ℚ) - 300) = 0
      rw [sub_self, mul_zero]
  · by_cases h0 : z = 0
    · subst h0
      rw [s1_sample_away x y ((0 : Nat) : Int) 0 0 (-1) 0 (-1) (by omega)
        (by rw [if_neg (by omega), if_neg (by omega)])
        (by rw [if_pos (by norm_num)]; norm_num) (by norm_num)]
      rfl
    · rw [s1_sample_in x y z 0 0 (-1) x y (z - 1) (by omega) (by omega) (by omega)
        hx (by omega) (by omega)]
      have hT : s1chunk.T_curr (idx x y (z - 1)) = 300 := by
        rw [s1_T_curr x y (z - 1) hx (by omega) (by omega), if_neg (by omega),
          if_pos ⟨hy1, hy2⟩]
      have hM : s1chunk.matIx (idx x y (z - 1)) = 1 := by
        rw [s1_matIx x y (z - 1) hx (by omega) (by omega), if_pos ⟨hy1, hy2⟩]
      rw [hT, hM]
      show k_eff (s1mats.byIx 1).thermalConductivity
        (s1mats.byIx 1).thermalConductivity * ((300 : ℚ) - 300) = 0
      rw [sub_self, mul_zero]

theorem s1_T300 (x y z : Nat) (hx : x < 16) (hy1 : 128 ≤ y) (hy2 : y < 144) (hz : z < 16)
    (hc : ¬(x = 8 ∧ y = 136 ∧ z = 8)) : s1chunk.T_curr (idx x y z) = 300 := by
  rw [s1_T_curr x y z hx (by omega) hz, if_neg hc, if_pos ⟨hy1, hy2⟩]

theorem s1_M1 (x y z : Nat) (hx : x < 16) (hy1 : 128 ≤ y) (hy2 : y < 144) (hz : z < 16) :
    s1chunk.matIx (idx x y z) = 1 := by
  rw [s1_matIx x y z hx (by omega) hz, if_pos ⟨hy1, hy2⟩]

theorem s1_T6000 : s1chunk.T_curr (idx 8 136 8) = 6000 := by
  rw [s1_T_curr 8 136 8 (by norm_num) (by norm_num) (by norm_num)]
  norm_num

/-- Away from the hot cell and its face neighbors, a section-8 cell of the S1
chunk computes to exactly 300 K: all six fluxes vanish. -/
theorem s1_cellNext_generic (x y z : Nat) (hx : x < 16) (hy1 : 128 ≤ y) (hy2 : y < 144)
    (hz : z < 16)
    (h1 : ¬(x = 8 ∧ y = 136 ∧ z = 8)) (h2 : ¬(x = 7 ∧ y = 136 ∧ z = 8))
    (h3 : ¬(x = 9 ∧ y = 136 ∧ z = 8)) (h4 : ¬(x = 8 ∧ y = 135 ∧ z = 8))
    (h5 : ¬(x = 8 ∧ y = 137 ∧ z = 8)) (h6 : ¬(x = 8 ∧ y = 136 ∧ z = 7))
    (h7 : ¬(x = 8 ∧ y = 136 ∧ z = 9)) :
    cellNext s1world s1chunk s1mats 1 x y z = 300 := by
  have hv : s1chunk.void_ix = 0 := rfl
  have hcap : (s1mats.byIx 1).heatCapacity = 500 := rfl
  have hmass : s1chunk.mass_kg (idx x y z) = 1000 := by
    rw [s1_mass x y z hx (by omega) hz, if_pos ⟨hy1, hy2⟩]
  unfold cellNext
  dsimp only
  rw [s1_M1 x y z hx hy1 hy2 hz, hv, if_neg (by norm_num : ¬ (1 : Nat) = 0),
    s1_T300 x y z hx hy1 hy2 hz h1, hmass, hcap]
  rw [s1_flux_zero x y z 1 0 0 hx hy1 hy2 hz (Or.inl ⟨rfl, rfl, rfl⟩) (by omega),
    s1_flux_zero x y z (-1) 0 0 hx hy1 hy2 hz (Or.inr (Or.inl ⟨rfl, rfl, rfl⟩)) (by omega),
    s1_flux_zero x y z 0 1 0 hx hy1 hy2 hz
      (Or.inr (Or.inr (Or.inl ⟨rfl, rfl, rfl⟩))) (by omega),
    s1_flux_zero x y z 0 (-1) 0 hx hy1 hy2 hz
      (Or.inr (Or.inr (Or.inr (Or.inl ⟨rfl, rfl, rfl⟩)))) (by omega),
    s1_flux_zero x y z 0 0 1 hx hy1 hy2 hz
      (Or.inr (Or.inr (Or.inr (Or.inr (Or.inl ⟨rfl, rfl, rfl⟩))))) (by omega),
    s1_flux_zero x y z 0 0 (-1) hx hy1 hy2 hz
      (Or.inr (Or.inr (Or.inr (Or.inr (Or.inr ⟨rfl, rfl, rfl⟩))))) (by omega)]
  norm_num [clampT]

theorem s1_next_px : cellNext s1world s1chunk s1mats 1 9 136 8 = 15057 / 50 := by
  have hv : s1chunk.void_ix = 0 := rfl
  have hcap : (s1mats.byIx 1).heatCapacity = 500 := rfl
  have hmass : s1chunk.mass_kg (idx 9 136 8) = 1000 := by
    rw [s1_mass 9 136 8 (by norm_num) (by norm_num) (by norm_num)]
    norm_num
  have hflux : fluxTerm s1mats (s1mats.byIx 1) 300 ⟨6000, 1, true⟩ =
      k_eff (s1mats.byIx 1).thermalConductivity
        (s1mats.byIx 1).thermalConductivity * ((6000 : ℚ) - 300) := rfl
  unfold cellNext
  dsimp only
  rw [s1_M1 9 136 8 (by norm_num) (by norm_num) (by norm_num) (by norm_num), hv,
    if_neg (by norm_num : ¬ (1 : Nat) = 0),
    s1_T300 9 136 8 (by norm_num) (by norm_num) (by norm_num) (by norm_num) (by norm_num),
    hmass, hcap]
  rw [s1_flux_zero 9 136 8 1 0 0 (by norm_num) (by norm_num) (by norm_num) (by norm_num)
      (Or.inl ⟨rfl, rfl, rfl⟩) (by omega),
    s1_flux_zero 9 136 8 0 1 0 (by norm_num) (by norm_num) (by norm_num) (by norm_num)
      (Or.inr (Or.inr (Or.inl ⟨rfl, rfl, rfl⟩))) (by omega),
    s1_flux_zero 9 136 8 0 (-1) 0 (by norm_num) (by norm_num) (by norm_num) (by norm_num)
      (Or.inr (Or.inr (Or.inr (Or.inl ⟨rfl, rfl, rfl⟩)))) (by omega),
    s1_flux_zero 9 136 8 0 0 1 (by norm_num) (by norm_num) (by norm_num) (by norm_num)
      (Or.inr (Or.inr (Or.inr (Or.inr (Or.inl ⟨rfl, rfl, rfl⟩))))) (by omega),
    s1_flux_zero 9 136 8 0 0 (-1) (by norm_num) (by norm_num) (by norm_num) (by norm_num)
      (Or.inr (Or.inr (Or.inr (Or.inr (Or.inr ⟨rfl, rfl, rfl⟩))))) (by omega)]
  rw [s1_sample_in ((9 : Nat) : Int) ((136 : Nat) : Int) ((8 : Nat) : Int) (-1) 0 0 8 136 8
    (by omega) (by omega) (by omega) (by norm_num) (by norm_num) (by norm_num)]
  rw [s1_T6000, s1_M1 8 136 8 (by norm_num) (by norm_num) (by norm_num) (by norm_num)]
  rw [hflux, s1_byIx1_k, k_eff_100_100, s1_max_Cth]
  norm_num [clampT]

theorem s1_next_mx : cellNext s1world s1chunk s1mats 1 7 136 8 = 15057 / 50 := by
  have hv : s1chunk.void_ix = 0 := rfl
  have hcap : (s1mats.byIx 1).heatCapacity = 500 := rfl
  have hmass : s1chunk.mass_kg (idx 7 136 8) = 1000 := by
    rw [s1_mass 7 136 8 (by norm_num) (by norm_num) (by norm_num)]
    norm_num
  have hflux : fluxTerm s1mats (s1mats.byIx 1) 300 ⟨6000, 1, true⟩ =
      k_eff (s1mats.byIx 1).thermalConductivity
        (s1mats.byIx 1).thermalConductivity * ((6000 : ℚ) - 300) := rfl
  unfold cellNext
  dsimp only
  rw [s1_M1 7 136 8 (by norm_num) (by norm_num) (by norm_num) (by norm_num), hv,
    if_neg (by norm_num : ¬ (1 : Nat) = 0),
    s1_T300 7 136 8 (by norm_num) (by norm_num) (by norm_num) (by norm_num) (by norm_num),
    hmass, hcap]
  rw [s1_flux_zero 7 136 8 (-1) 0 0 (by norm_num) (by norm_num) (by norm_num) (by norm_num)
      (Or.inr (Or.inl ⟨rfl, rfl, rfl⟩)) (by omega),
    s1_flux_zero 7 136 8 0 1 0 (by norm_num) (by norm_num) (by norm_num) (by norm_num)
      (Or.inr (Or.inr (Or.inl ⟨rfl, rfl, rfl⟩))) (by omega),
    s1_flux_zero 7 136 8 0 (-1) 0 (by norm_num) (by norm_num) (by norm_num) (by norm_num)
      (Or.inr (Or.inr (Or.inr (Or.inl ⟨rfl, rfl, rfl⟩)))) (by omega),
    s1_flux_zero 7 136 8 0 0 1 (by norm_num) (by norm_num) (by norm_num) (by norm_num)
      (Or.inr (Or.inr (Or.inr (Or.inr (Or.inl ⟨rfl, rfl, rfl⟩))))) (by omega),
    s1_flux_zero 7 136 8 0 0 (-1) (by norm_num) (by norm_num) (by norm_num) (by norm_num)
      (Or.inr (Or.inr (Or.inr (Or.inr (Or.inr ⟨rfl, rfl, rfl⟩))))) (by omega)]
  rw [s1_sample_in ((7 : Nat) : Int) ((136 : Nat) : Int) ((8 : Nat) : Int) 1 0 0 8 136 8
    (by omega) (by omega) (by omega) (by norm_num) (by norm_num) (by norm_num)]
  rw [s1_T6000, s1_M1 8 136 8 (by norm_num) (by norm_num) (by norm_num) (by norm_num)]
  rw [hflux, s1_byIx1_k, k_eff_100_100, s1_max_Cth]
  norm_num [clampT]

theorem s1_next_py : cellNext s1world s1chunk s1mats 1 8 137 8 = 15057 / 50 := by
  have hv : s1chunk.void_ix = 0 := rfl
  have hcap : (s1mats.byIx 1).heatCapacity = 500 := rfl
  have hmass : s1chunk.mass_kg (idx 8 137 8) = 1000 := by
    rw [s1_mass 8 137 8 (by norm_num) (by norm_num) (by norm_num)]
    norm_num
  have hflux : fluxTerm s1mats (s1mats.byIx 1) 300 ⟨6000, 1, true⟩ =
      k_eff (s1mats.byIx 1).thermalConductivity
        (s1mats.byIx 1).thermalConductivity * ((6000 : ℚ) - 300) := rfl
  unfold cellNext
  dsimp only
  rw [s1_M1 8 137 8 (by norm_num) (by norm_num) (by norm_num) (by norm_num), hv,
    if_neg (by norm_num : ¬ (1 : Nat) = 0),
    s1_T300 8 137 8 (by norm_num) (by norm_num) (by norm_num) (by norm_num) (by norm_num),
    hmass, hcap]
  rw [s1_flux_zero 8 137 8 1 0 0 (by norm_num) (by norm_num) (by norm_num) (by norm_num)
      (Or.inl ⟨rfl, rfl, rfl⟩) (by omega),
    s1_flux_zero 8 137 8 (-1) 0 0 (by norm_num) (by norm_num) (by norm_num) (by norm_num)
      (Or.inr (Or.inl ⟨rfl, rfl, rfl⟩)) (by omega),
    s1_flux_zero 8 137 8 0 1 0 (by norm_num) (by norm_num) (by norm_num) (by norm_num)
      (Or.inr (Or.inr (Or.inl ⟨rfl, rfl, rfl⟩))) (by omega),
    s1_flux_zero 8 137 8 0 0 1 (by norm_num) (by norm_num) (by norm_num) (by norm_num)
      (Or.inr (Or.inr (Or.inr (Or.inr (Or.inl ⟨rfl, rfl, rfl⟩))))) (by omega),
    s1_flux_zero 8 137 8 0 0 (-1) (by norm_num) (by norm_num) (by norm_num) (by norm_num)
      (Or.inr (Or.inr (Or.inr (Or.inr (Or.inr ⟨rfl, rfl, rfl⟩))))) (by omega)]
  rw [s1_sample_in ((8 : Nat) : Int) ((137 : Nat) : Int) ((8 : Nat) : Int) 0 (-1) 0 8 136 8
    (by omega) (by omega) (by omega) (by norm_num) (by norm_num) (by norm_num)]
  rw [s1_T6000, s1_M1 8 136 8 (by norm_num) (by norm_num) (by norm_num) (by norm_num)]
  rw [hflux, s1_byIx1_k, k_eff_100_100, s1_max_Cth]
  norm_num [clampT]

theorem s1_next_my : cellNext s1world s1chunk s1mats 1 8 135 8 = 15057 / 50 := by
  have hv : s1chunk.void_ix = 0 := rfl
  have hcap : (s1mats.byIx 1).heatCapacity = 500 := rfl
  have hmass : s1chunk.mass_kg (idx 8 135 8) = 1000 := by
    rw [s1_mass 8 135 8 (by norm_num) (by norm_num) (by norm_num)]
    norm_num
  have hflux : fluxTerm s1mats (s1mats.byIx 1) 300 ⟨6000, 1, true⟩ =
      k_eff (s1mats.byIx 1).thermalConductivity
        (s1mats.byIx 1).thermalConductivity * ((6000 : ℚ) - 300) := rfl
  unfold cellNext
  dsimp only
  rw [s1_M1 8 135 8 (by norm_num) (by norm_num) (by norm_num) (by norm_num), hv,
    if_neg (by norm_num : ¬ (1 : Nat) = 0),
    s1_T300 8 135 8 (by norm_num) (by norm_num) (by norm_num) (by norm_num) (by norm_num),
    hmass, hcap]
  rw [s1_flux_zero 8 135 8 1 0 0 (by norm_num) (by norm_num) (by norm_num) (by norm_num)
      (Or.inl ⟨rfl, rfl, rfl⟩) (by omega),
    s1_flux_zero 8 135 8 (-1) 0 0 (by norm_num) (by norm_num) (by norm_num) (by norm_num)
      (Or.inr (Or.inl ⟨rfl, rfl, rfl⟩)) (by omega),
    s1_flux_zero 8 135 8 0 (-1) 0 (by norm_num) (by norm_num) (by norm_num) (by norm_num)
      (Or.inr (Or.inr (Or.inr (Or.inl ⟨rfl, rfl, rfl⟩)))) (by omega),
    s1_flux_zero 8 135 8 0 0 1 (by norm_num) (by norm_num) (by norm_num) (by norm_num)
      (Or.inr (Or.inr (Or.inr (Or.inr (Or.inl ⟨rfl, rfl, rfl⟩))))) (by omega),
    s1_flux_zero 8 135 8 0 0 (-1) (by norm_num) (by norm_num) (by norm_num) (by norm_num)
      (Or.inr (Or.inr (Or.inr (Or.inr (Or.inr ⟨rfl, rfl, rfl⟩))))) (by omega)]
  rw [s1_sample_in ((8 : Nat) : Int) ((135 : Nat) : Int) ((8 : Nat) : Int) 0 1 0 8 136 8
    (by omega) (by omega) (by omega) (by norm_num) (by norm_num) (by norm_num)]
  rw [s1_T6000, s1_M1 8 136 8 (by norm_num) (by norm_num) (by norm_num) (by norm_num)]
  rw [hflux, s1_byIx1_k, k_eff_100_100, s1_max_Cth]
  norm_num [clampT]

theorem s1_next_pz : cellNext s1world s1chunk s1mats 1 8 136 9 = 15057 / 50 := by
  have hv : s1chunk.void_ix = 0 := rfl
  have hcap : (s1mats.byIx 1).heatCapacity = 500 := rfl
  have hmass : s1chunk.mass_kg (idx 8 136 9) = 1000 := by
    rw [s1_mass 8 136 9 (by norm_num) (by norm_num) (by norm_num)]
    norm_num
  have hflux : fluxTerm s1mats (s1mats.byIx 1) 300 ⟨6000, 1, true⟩ =
      k_eff (s1mats.byIx 1).thermalConductivity
        (s1mats.byIx 1).thermalConductivity * ((6000 : ℚ) - 300) := rfl
  unfold cellNext
  dsimp only
  rw [s1_M1 8 136 9 (by norm_num) (by norm_num) (by norm_num) (by norm_num), hv,
    if_neg (by norm_num : ¬ (1 : Nat) = 0),
    s1_T300 8 136 9 (by norm_num) (by norm_num) (by norm_num) (by norm_num) (by norm_num),
    hmass, hcap]
  rw [s1_flux_zero 8 136 9 1 0 0 (by norm_num) (by norm_num) (by norm_num) (by norm_num)
      (Or.inl ⟨rfl, rfl, rfl⟩) (by omega),
    s1_flux_zero 8 136 9 (-1) 0 0 (by norm_num) (by norm_num) (by norm_num) (by norm_num)
      (Or.inr (Or.inl ⟨rfl, rfl, rfl⟩)) (by omega),
    s1_flux_zero 8 136 9 0 1 0 (by norm_num) (by norm_num) (by norm_num) (by norm_num)
      (Or.inr (Or.inr (Or.inl ⟨rfl, rfl, rfl⟩))) (by omega),
    s1_flux_zero 8 136 9 0 (-1) 0 (by norm_num) (by norm_num) (by norm_num) (by norm_num)
      (Or.inr (Or.inr (Or.inr (Or.inl ⟨rfl, rfl, rfl⟩)))) (by omega),
    s1_flux_zero 8 136 9 0 0 1 (by norm_num) (by norm_num) (by norm_num) (by norm_num)
      (Or.inr (Or.inr (Or.inr (Or.inr (Or.inl ⟨rfl, rfl, rfl⟩))))) (by omega)]
  rw [s1_sample_in ((8 : Nat) : Int) ((136 : Nat) : Int) ((9 : Nat) : Int) 0 0 (-1) 8 136 8
    (by omega) (by omega) (by omega) (by norm_num) (by norm_num) (by norm_num)]
  rw [s1_T6000, s1_M1 8 136 8 (by norm_num) (by norm_num) (by norm_num) (by norm_num)]
  rw [hflux, s1_byIx1_k, k_eff_100_100, s1_max_Cth]
  norm_num [clampT]

theorem s1_next_mz : cellNext s1world s1chunk s1mats 1 8 136 7 = 15057 / 50 := by
  have hv : s1chunk.void_ix = 0 := rfl
  have hcap : (s1mats.byIx 1).heatCapacity = 500 := rfl
  have hmass : s1chunk.mass_kg (idx 8 136 7) = 1000 := by
    rw [s1_mass 8 136 7 (by norm_num) (by norm_num) (by norm_num)]
    norm_num
  have hflux : fluxTerm s1mats (s1mats.byIx 1) 300 ⟨6000, 1, true⟩ =
      k_eff (s1mats.byIx 1).thermalConductivity
        (s1mats.byIx 1).thermalConductivity * ((6000 : ℚ) - 300) := rfl
  unfold cellNext
  dsimp only
  rw [s1_M1 8 136 7 (by norm_num) (by norm_num) (by norm_num) (by norm_num), hv,
    if_neg (by norm_num : ¬ (1 : Nat) = 0),
    s1_T300 8 136 7 (by norm_num) (by norm_num) (by norm_num) (by norm_num) (by norm_num),
    hmass, hcap]
  rw [s1_flux_zero 8 136 7 1 0 0 (by norm_num) (by norm_num) (by norm_num) (by norm_num)
      (Or.inl ⟨rfl, rfl, rfl⟩) (by omega),
    s1_flux_zero 8 136 7 (-1) 0 0 (by norm_num) (by norm_num) (by norm_num) (by norm_num)
      (Or.inr (Or.inl ⟨rfl, rfl, rfl⟩)) (by omega),
    s1_flux_zero 8 136 7 0 1 0 (by norm_num) (by norm_num) (by norm_num) (by norm_num)
      (Or.inr (Or.inr (Or.inl ⟨rfl, rfl, rfl⟩))) (by omega),
    s1_flux_zero 8 136 7 0 (-1) 0 (by norm_num) (by norm_num) (by norm_num) (by norm_num)
      (Or.inr (Or.inr (Or.inr (Or.inl ⟨rfl, rfl, rfl⟩)))) (by omega),
    s1_flux_zero 8 136 7 0 0 (-1) (by norm_num) (by norm_num) (by norm_num) (by norm_num)
      (Or.inr (Or.inr (Or.inr (Or.inr (Or.inr ⟨rfl, rfl, rfl⟩))))) (by omega)]
  rw [s1_sample_in ((8 : Nat) : Int) ((136 : Nat) : Int) ((7 : Nat) : Int) 0 0 1 8 136 8
    (by omega) (by omega) (by omega) (by norm_num) (by norm_num) (by norm_num)]
  rw [s1_T6000, s1_M1 8 136 8 (by norm_num) (by norm_num) (by norm_num) (by norm_num)]
  rw [hflux, s1_byIx1_k, k_eff_100_100, s1_max_Cth]
  norm_num [clampT]

theorem s1_next_center : cellNext s1world s1chunk s1mats 1 8 136 8 = 149829 / 25 := by
  have hv : s1chunk.void_ix = 0 := rfl
  have hcap : (s1mats.byIx 1).heatCapacity = 500 := rfl
  have hmass : s1chunk.mass_kg (idx 8 136 8) = 1000 := by
    rw [s1_mass 8 136 8 (by norm_num) (by norm_num) (by norm_num)]
    norm_num
  have hflux : fluxTerm s1mats (s1mats.byIx 1) 6000 ⟨300, 1, true⟩ =
      k_eff (s1mats.byIx 1).thermalConductivity
        (s1mats.byIx 1).thermalConductivity * ((300 : ℚ) - 6000) := rfl
  unfold cellNext
  dsimp only
  rw [s1_M1 8 136 8 (by norm_num) (by norm_num) (by norm_num) (by norm_num), hv,
    if_neg (by norm_num : ¬ (1 : Nat) = 0), s1_T6000, hmass, hcap]
  rw [s1_sample_in ((8 : Nat) : Int) ((136 : Nat) : Int) ((8 : Nat) : Int) 1 0 0 9 136 8
    (by omega) (by omega) (by omega) (by norm_num) (by norm_num) (by norm_num),
    s1_sample_in ((8 : Nat) : Int) ((136 : Nat) : Int) ((8 : Nat) : Int) (-1) 0 0 7 136 8
    (by omega) (by omega) (by omega) (by norm_num) (by norm_num) (by norm_num),
    s1_sample_in ((8 : Nat) : Int) ((136 : Nat) : Int) ((8 : Nat) : Int) 0 1 0 8 137 8
    (by omega) (by omega) (by omega) (by norm_num) (by norm_num) (by norm_num),
    s1_sample_in ((8 : Nat) : Int) ((136 : Nat) : Int) ((8 : Nat) : Int) 0 (-1) 0 8 135 8
    (by omega) (by omega) (by omega) (by norm_num) (by norm_num) (by norm_num),
    s1_sample_in ((8 : Nat) : Int) ((136 : Nat) : Int) ((8 : Nat) : Int) 0 0 1 8 136 9
    (by omega) (by omega) (by omega) (by norm_num) (by norm_num) (by norm_num),
    s1_sample_in ((8 : Nat) : Int) ((136 : Nat) : Int) ((8 : Nat) : Int) 0 0 (-1) 8 136 7
    (by omega) (by omega) (by omega) (by norm_num) (by norm_num) (by norm_num)]
  rw [s1_T300 9 136 8 (by norm_num) (by norm_num) (by norm_num) (by norm_num) (by norm_num),
    s1_M1 9 136 8 (by norm_num) (by norm_num) (by norm_num) (by norm_num),
    s1_T300 7 136 8 (by norm_num) (by norm_num) (by norm_num) (by norm_num) (by norm_num),
    s1_M1 7 136 8 (by norm_num) (by norm_num) (by norm_num) (by norm_num),
    s1_T300 8 137 8 (by norm_num) (by norm_num) (by norm_num) (by norm_num) (by norm_num),
    s1_M1 8 137 8 (by norm_num) (by norm_num) (by norm_num) (by norm_num),
    s1_T300 8 135 8 (by norm_num) (by norm_num) (by norm_num) (by norm_num) (by norm_num),
    s1_M1 8 135 8 (by norm_num) (by norm_num) (by norm_num) (by norm_num),
    s1_T300 8 136 9 (by norm_num) (by norm_num) (by norm_num) (by norm_num) (by norm_num),
    s1_M1 8 136 9 (by norm_num) (by norm_num) (by norm_num) (by norm_num),
    s1_T300 8 136 7 (by norm_num) (by norm_num) (by norm_num) (by norm_num) (by norm_num),
    s1_M1 8 136 7 (by norm_num) (by norm_num) (by norm_num) (by norm_num)]
  rw [hflux, s1_byIx1_k, k_eff_100_100, s1_max_Cth]
  norm_num [clampT]

/-- The front buffer of the (0,0) chunk after one combined step of the S1
world: inside section 8 it is the kernel's cellNext, elsewhere the old
back buffer. -/
theorem s1AfterT_eq (tm : Int × Int → Nat → ℚ) (x y z : Nat)
    (hx : x < 16) (hy : y < 384) (hz : z < 16) :
    (((step_frame s1world 1 tm).findChunk 0 0).getD (freshChunk 0 0)).T_curr (idx x y z) =
      if 128 ≤ y ∧ y < 144 then cellNext s1world s1chunk s1mats 1 x y z
      else s1chunk.T_next (idx x y z) := by
  have hlist := step_single s1world (0, 0) s1chunk rfl 1 tm
  have hget : ((step_frame s1world 1 tm).findChunk 0 0).getD (freshChunk 0 0) =
      swapChunk (computeChunk s1world s1chunk 1 (tm (0, 0))) := by
    unfold World.findChunk
    rw [hlist]
    simp [List.find?]
  have h2 : ∀ D : Chunk, (swapChunk D).T_curr (idx x y z) = D.T_next (idx x y z) :=
    fun D => rfl
  have hTn := computeChunk_T_next s1world s1chunk 1 (tm (0, 0)) x y z hx hy hz
  have hfin : (if s1chunk.sectionLoaded (y / 16) = true
        then cellNext s1world s1chunk s1world.materials 1 x y z
        else s1chunk.T_next (idx x y z)) =
      if 128 ≤ y ∧ y < 144 then cellNext s1world s1chunk s1mats 1 x y z
      else s1chunk.T_next (idx x y z) := by
    rw [s1_loaded (y / 16)]
    by_cases hs : 128 ≤ y ∧ y < 144
    · rw [if_pos hs]
      have h8 : y / 16 = 8 := by omega
      rw [h8, if_pos (show decide ((8 : Nat) = 8) = true from rfl)]
      rfl
    · rw [if_neg hs]
      have hne : ¬ decide (y / 16 = 8) = true := by
        intro hd
        exact (by omega : y / 16 ≠ 8) (of_decide_eq_true hd)
      rw [if_neg hne]
  exact Eq.trans (congrArg (fun C => C.T_curr (idx x y z)) hget)
    (Eq.trans (h2 (computeChunk s1world s1chunk 1 (tm (0, 0)))) (Eq.trans hTn hfin))

/-- C8: In the S1 initial condition (one chunk at (0,0), section 8 filled
with SOLID — conductivity 100, heat capacity 500, mass 1000 — at 300 K, the
section's center cell idx 8 136 8 at 6000 K in both buffers, dt = 1), after
exactly one step: each of the six face neighbors of the center sits strictly
between 300 K and 6000 K, the center strictly decreases, every other cell of
the filled section is exactly 300 K, and every cell outside the section
keeps its previous temperature. -/
theorem C8_S1_hot_cell (tm : Int × Int → Nat → ℚ) (x y z : Nat)
    (hx : x < 16) (hy : y < 384) (hz : z < 16) :
    (300 < (((step_frame s1world 1 tm).findChunk 0 0).getD (freshChunk 0 0)).T_curr
        (idx 9 136 8) ∧
      (((step_frame s1world 1 tm).findChunk 0 0).getD (freshChunk 0 0)).T_curr
        (idx 9 136 8) < 6000) ∧
    (300 < (((step_frame s1world 1 tm).findChunk 0 0).getD (freshChunk 0 0)).T_curr
        (idx 7 136 8) ∧
      (((step_frame s1world 1 tm).findChunk 0 0).getD (freshChunk 0 0)).T_curr
        (idx 7 136 8) < 6000) ∧
    (300 < (((step_frame s1world 1 tm).findChunk 0 0).getD (freshChunk 0 0)).T_curr
        (idx 8 137 8) ∧
      (((step_frame s1world 1 tm).findChunk 0 0).getD (freshChunk 0 0)).T_curr
        (idx 8 137 8) < 6000) ∧
    (300 < (((step_frame s1world 1 tm).findChunk 0 0).getD (freshChunk 0 0)).T_curr
        (idx 8 135 8) ∧
      (((step_frame s1world 1 tm).findChunk 0 0).getD (freshChunk 0 0)).T_curr
        (idx 8 135 8) < 6000) ∧
    (300 < (((step_frame s1world 1 tm).findChunk 0 0).getD (freshChunk 0 0)).T_curr
        (idx 8 136 9) ∧
      (((step_frame s1world 1 tm).findChunk 0 0).getD (freshChunk 0 0)).T_curr
        (idx 8 136 9) < 6000) ∧
    (300 < (((step_frame s1world 1 tm).findChunk 0 0).getD (freshChunk 0 0)).T_curr
        (idx 8 136 7) ∧
      (((step_frame s1world 1 tm).findChunk 0 0).getD (freshChunk 0 0)).T_curr
        (idx 8 136 7) < 6000) ∧
    (((step_frame s1world 1 tm).findChunk 0 0).getD (freshChunk 0 0)).T_curr
        (idx 8 136 8) < s1chunk.T_curr (idx 8 136 8) ∧
    (128 ≤ y ∧ y < 144 →
      ¬(x = 8 ∧ y = 136 ∧ z = 8) → ¬(x = 7 ∧ y = 136 ∧ z = 8) →
      ¬(x = 9 ∧ y = 136 ∧ z = 8) → ¬(x = 8 ∧ y = 135 ∧ z = 8) →
      ¬(x = 8 ∧ y = 137 ∧ z = 8) → ¬(x = 8 ∧ y = 136 ∧ z = 7) →
      ¬(x = 8 ∧ y = 136 ∧ z = 9) →
      (((step_frame s1world 1 tm).findChunk 0 0).getD (freshChunk 0 0)).T_curr
        (idx x y z) = 300) ∧
    (¬(128 ≤ y ∧ y < 144) →
      (((step_frame s1world 1 tm).findChunk 0 0).getD (freshChunk 0 0)).T_curr
        (idx x y z) = s1chunk.T_curr (idx x y z)) := by
  have hsec : (128 : Nat) ≤ 136 ∧ (136 : Nat) < 144 := by norm_num
  have e9 : (((step_frame s1world 1 tm).findChunk 0 0).getD (freshChunk 0 0)).T_curr
      (idx 9 136 8) = 15057 / 50 := by
    rw [s1AfterT_eq tm 9 136 8 (by norm_num) (by norm_num) (by norm_num), if_pos hsec]
    exact s1_next_px
  have e7 : (((step_frame s1world 1 tm).findChunk 0 0).getD (freshChunk 0 0)).T_curr
      (idx 7 136 8) = 15057 / 50 := by
    rw [s1AfterT_eq tm 7 136 8 (by norm_num) (by norm_num) (by norm_num), if_pos hsec]
    exact s1_next_mx
  have eyp : (((step_frame s1world 1 tm).findChunk 0 0).getD (freshChunk 0 0)).T_curr
      (idx 8 137 8) = 15057 / 50 := by
    rw [s1AfterT_eq tm 8 137 8 (by norm_num) (by norm_num) (by norm_num),
      if_pos (by norm_num : (128 : Nat) ≤ 137 ∧ (137 : Nat) < 144)]
    exact s1_next_py
  have eym : (((step_frame s1world 1 tm).findChunk 0 0).getD (freshChunk 0 0)).T_curr
      (idx 8 135 8) = 15057 / 50 := by
    rw [s1AfterT_eq tm 8 135 8 (by norm_num) (by norm_num) (by norm_num),
      if_pos (by norm_num : (128 : Nat) ≤ 135 ∧ (135 : Nat) < 144)]
    exact s1_next_my
  have ezp : (((step_frame s1world 1 tm).findChunk 0 0).getD (freshChunk 0 0)).T_curr
      (idx 8 136 9) = 15057 / 50 := by
    rw [s1AfterT_eq tm 8 136 9 (by norm_num) (by norm_num) (by norm_num), if_pos hsec]
    exact s1_next_pz
  have ezm : (((step_frame s1world 1 tm).findChunk 0 0).getD (freshChunk 0 0)).T_curr
      (idx 8 136 7) = 15057 / 50 := by
    rw [s1AfterT_eq tm 8 136 7 (by norm_num) (by norm_num) (by norm_num), if_pos hsec]
    exact s1_next_mz
  have ec : (((step_frame s1world 1 tm).findChunk 0 0).getD (freshChunk 0 0)).T_curr
      (idx 8 136 8) = 149829 / 25 := by
    rw [s1AfterT_eq tm 8 136 8 (by norm_num) (by norm_num) (by norm_num), if_pos hsec]
    exact s1_next_center
  refine ⟨⟨?_, ?_⟩, ⟨?_, ?_⟩, ⟨?_, ?_⟩, ⟨?_, ?_⟩, ⟨?_, ?_⟩, ⟨?_, ?_⟩, ?_, ?_, ?_⟩
  · rw [e9]; norm_num
  · rw [e9]; norm_num
  · rw [e7]; norm_num
  · rw [e7]; norm_num
  · rw [eyp]; norm_num
  · rw [eyp]; norm_num
  · rw [eym]; norm_num
  · rw [eym]; norm_num
  · rw [ezp]; norm_num
  · rw [ezp]; norm_num
  · rw [ezm]; norm_num
  · rw [ezm]; norm_num
  · rw [ec, s1_T6000]; norm_num
  · intro hs k1 k2 k3 k4 k5 k6 k7
    rw [s1AfterT_eq tm x y z hx hy hz, if_pos hs]
    exact s1_cellNext_generic x y z hx hs.1 hs.2 hz k1 k2 k3 k4 k5 k6 k7
  · intro hs
    rw [s1AfterT_eq tm x y z hx hy hz, if_neg hs]
    rw [s1_T_next x y z hx hy hz, s1_T_curr x y z hx hy hz]

/-- C8 witness: with all section timings 0, the +x neighbor heats above
300 K, a far corner cell of the section stays at 300 K, and a cell outside
the section keeps its previous temperature. -/
theorem C8_witness :
    300 < (((step_frame s1world 1 (fun _ _ => 0)).findChunk 0 0).getD
        (freshChunk 0 0)).T_curr (idx 9 136 8) ∧
    (((step_frame s1world 1 (fun _ _ => 0)).findChunk 0 0).getD
        (freshChunk 0 0)).T_curr (idx 0 128 0) = 300 ∧
    (((step_frame s1world 1 (fun _ _ => 0)).findChunk 0 0).getD
        (freshChunk 0 0)).T_curr (idx 0 0 0) = s1chunk.T_curr (idx 0 0 0) := by
  have h := C8_S1_hot_cell (fun _ _ => 0) 0 128 0 (by norm_num) (by norm_num) (by norm_num)
  have h2 := C8_S1_hot_cell (fun _ _ => 0) 0 0 0 (by norm_num) (by norm_num) (by norm_num)
  exact ⟨h.1.1,
    h.2.2.2.2.2.2.2.1 (by norm_num) (by norm_num) (by norm_num) (by norm_num) (by norm_num)
      (by norm_num) (by norm_num) (by norm_num),
    h2.2.2.2.2.2.2.2.2 (by norm_num)⟩

/-- C9 witness: the amended claim at a one-entry table. -/
theorem C9_witness :
    smallLUT.table.length < 65536 ∧
    (smallLUT.add matSOLID).2 = smallLUT.table.length ∧
    (smallLUT.add matSOLID).1.byIx (smallLUT.add matSOLID).2 = matSOLID ∧
    (smallLUT.add matSOLID).1.byIx 0 = smallLUT.byIx 0 := by
  have h := C9_amended smallLUT matSOLID (by norm_num [smallLUT])
  exact ⟨by norm_num [smallLUT], h.2.1, h.2.2.1,
    h.2.2.2 0 (by norm_num [smallLUT])⟩

end Orge
